import Mathlib

/-!
Shallow embedding of `src/read_surf.cpp` (SPARTA/DSMC `ReadSurf` command):
ingestion of a surface mesh (points + 2-D lines or 3-D triangles), geometric
transformations of the new block, validation (inside-box, point proximity,
watertightness) and final commit to the `Surf` store.

Coordinates are modelled as exact rationals (the C code uses `double`); the
only irrational quantities in the source are the initial bin sizes of the
proximity check (`sqrt` / `pow(...,1/3)`), which are modelled over `ℝ` and
feed integer bin counts into an otherwise executable core.  Machine `int`
values are modelled as `ℤ` (no overflow is relevant at the sizes involved),
counts as `ℕ`.  `error->all(...)` is fatal in the source; it is modelled as
an error value that aborts the command, leaving the store untouched.
-/

namespace ReadSurf

/-- A surface point: 3 coordinates (read_surf.cpp stores `Surf::Point.x[3]`). -/
structure Point where
  x0 : ℚ
  x1 : ℚ
  x2 : ℚ
  deriving DecidableEq, Repr

/-- A 2-D line segment: owning surface id and two (global) point indices. -/
structure Line where
  sid : ℤ
  p1 : ℤ
  p2 : ℤ
  deriving DecidableEq, Repr

/-- A 3-D triangle: owning surface id and three (global) point indices. -/
structure Tri where
  sid : ℤ
  p1 : ℤ
  p2 : ℤ
  p3 : ℤ
  deriving DecidableEq, Repr

/-- Simulation box bounds (`domain->boxlo`, `domain->boxhi`). -/
structure Box where
  lo0 : ℚ
  lo1 : ℚ
  lo2 : ℚ
  hi0 : ℚ
  hi1 : ℚ
  hi2 : ℚ
  deriving DecidableEq, Repr

def Box.xprd (b : Box) : ℚ := b.hi0 - b.lo0
def Box.yprd (b : Box) : ℚ := b.hi1 - b.lo1
def Box.zprd (b : Box) : ℚ := b.hi2 - b.lo2

/-- The geometry store (`Surf`): committed points/lines/tris with their
counts, the registered surface ids and the `surf_exist` flag. -/
structure Surf where
  surfExist : Bool
  ids : List ℤ
  pts : List Point
  lines : List Line
  tris : List Tri
  npoint : ℕ
  nline : ℕ
  ntri : ℕ
  deriving DecidableEq, Repr

/-- Fatal errors raised by `ReadSurf::command` via `error->all`.  Constructors
correspond to the distinct message sites in read_surf.cpp; the spec taxonomy
groups them as FormatError / GeometryError / TopologyError (see `Err.kind`). -/
inductive Err where
  /-- "Surf file cannot contain lines for 3d simulation" -/
  | headerLines3d : Err
  /-- "Surf file cannot contain triangles for 2d simulation" -/
  | headerTris2d : Err
  /-- "Surf files does not contain points" -/
  | headerNoPoints : Err
  /-- "Surf files does not contain lines" -/
  | headerNoLines : Err
  /-- "Surf files does not contain triangles" -/
  | headerNoTris : Err
  /-- "Surf file cannot parse Points section" -/
  | keywordPoints : Err
  /-- "Surf file cannot parse Lines section" / "... Triangles section" -/
  | keywordSecond : Err
  /-- "Incorrect point format in surf file" -/
  | formatPoint : Err
  /-- "Incorrect line format in surf file" -/
  | formatLine : Err
  /-- "Incorrect triangle format in surf file" -/
  | formatTri : Err
  /-- "Invalid point index in line" -/
  | indexLine : Err
  /-- "Invalid point index in triangle" -/
  | indexTri : Err
  /-- "Invalid read_surf geometry transformation for 2d simulation" -/
  | transform2d : Err
  /-- "%d read_surf points are not inside simulation box" -/
  | notInside : ℕ → Err
  /-- "%d read_surf point pairs are too close" -/
  | tooClose : ℕ → Err
  /-- "%d read_surf lines/triangle edges are not watertight" -/
  | notWatertight : ℕ → Err
  deriving DecidableEq, Repr

/-- Spec error taxonomy (§7). -/
inductive ErrKind where
  | formatError | geometryError | topologyError
  deriving DecidableEq, Repr

def Err.kind : Err → ErrKind
  | .headerLines3d | .headerTris2d | .headerNoPoints | .headerNoLines
  | .headerNoTris | .keywordPoints | .keywordSecond
  | .formatPoint | .formatLine | .formatTri | .indexLine | .indexTri =>
      .formatError
  | .transform2d | .notInside _ | .tooClose _ => .geometryError
  | .notWatertight _ => .topologyError

/-! ### Section readers (`ReadSurf::read_points/read_lines/read_tris`)

A record is a tokenized file line (labels and numbers); `atof`/`atoi` have
already been applied, so a Points record is a `List ℚ` and a Lines/Triangles
record a `List ℤ`.  The token count of a record is its length
(`count_words`).  The readers consume `CHUNK = 1024` records at a time; the
token count is checked only on the first line of each chunk
(`count_words(buf)` on the head of the broadcast buffer).  -/

/-- `CHUNK` from read_surf.cpp. -/
def CHUNK : ℕ := 1024

/-- Parse one Points record: the label token is discarded, the coordinates
follow positionally; in 2-D the z coordinate is set to `0.0` unconditionally
(read_surf.cpp:393-397).  The `getD` default is a modelling artefact no
theorem relies on: in the source the tokenizer's delimiter set includes the
newline, so a record carrying fewer tokens than the dimensionality requires
would draw its remaining tokens from the following line (or hit
`atof(NULL)` at the end of the chunk buffer).  Accordingly no theorem below
asserts the stored x/y (or 3-D z) coordinates of such a short record; every
value-asserting statement covers records with at least the required token
count, where the defaults never fire. -/
def parsePoint (dim : ℕ) (r : List ℚ) : Point :=
  ⟨r.getD 1 0, r.getD 2 0, if dim = 3 then r.getD 3 0 else 0⟩

/-- The chunk loop of `ReadSurf::read_points` (read_surf.cpp:364-403): one
iteration consumes one chunk of up to `CHUNK` records, checks the token
count of the chunk's FIRST record only, parses every record of the chunk and
continues with the remainder.  The loop runs at most once per record, so the
iteration bound (`fuel`) is instantiated with the record count by
`read_points`; the fuel-exhausted case is never reached. -/
def read_pointsLoop (dim : ℕ) : ℕ → List (List ℚ) → Except Err (List Point)
  | _, [] => .ok []
  | 0, _ :: _ => .ok []
  | fuel + 1, r :: rs =>
    if dim = 2 ∧ r.length ≠ 3 then .error .formatPoint
    else if dim = 3 ∧ r.length ≠ 4 then .error .formatPoint
    else
      match read_pointsLoop dim fuel (rs.drop (CHUNK - 1)) with
      | .error e => .error e
      | .ok rest => .ok (((r :: rs.take (CHUNK - 1)).map (parsePoint dim)) ++ rest)

/-- `ReadSurf::read_points`: chunked reading of all point records. -/
def read_points (dim : ℕ) (recs : List (List ℚ)) : Except Err (List Point) :=
  read_pointsLoop dim recs.length recs

/-- Vertex validation for one Lines record (read_surf.cpp:455). -/
def badLineVertex (np : ℤ) (p1 p2 : ℤ) : Prop :=
  p1 < 1 ∨ p1 > np ∨ p2 < 1 ∨ p2 > np ∨ p1 = p2

instance (np p1 p2 : ℤ) : Decidable (badLineVertex np p1 p2) := by
  unfold badLineVertex; infer_instance

/-- Sequential parsing of the records of one chunk: records are processed in
order and the first fatal record aborts (in the source `error->all` aborts
from inside the loop). -/
def parseRecords {σ : Type} (parse : List ℤ → Except Err σ) :
    List (List ℤ) → Except Err (List σ)
  | [] => .ok []
  | r :: rs =>
    match parse r with
    | .error e => .error e
    | .ok v =>
      match parseRecords parse rs with
      | .error e => .error e
      | .ok vs => .ok (v :: vs)

/-- Parse/store one Lines record: label discarded, indices validated and
translated to the global index space by `-1 + npoint_old`
(read_surf.cpp:452-459).  As with `parsePoint`, the `getD` default is never
relied upon: theorems about stored lines carry hypotheses (record length,
or vertex validity of the indices the record actually carries) that exclude
records shorter than the 3 required tokens, where the source's tokenizer
would read on into the next line. -/
def parseLine (sid npo np : ℤ) (r : List ℤ) : Except Err Line :=
  if badLineVertex np (r.getD 1 0) (r.getD 2 0) then .error .indexLine
  else .ok ⟨sid, r.getD 1 0 - 1 + npo, r.getD 2 0 - 1 + npo⟩

/-- The chunk loop of `ReadSurf::read_lines` (read_surf.cpp:425-465); the
token-count check (`nwords != 3`) examines the first record of each chunk
(read_surf.cpp:441-448), then each record of the chunk is vertex-checked and
stored in order.  Fuel as in `read_pointsLoop`. -/
def read_linesLoop (sid npo np : ℤ) : ℕ → List (List ℤ) → Except Err (List Line)
  | _, [] => .ok []
  | 0, _ :: _ => .ok []
  | fuel + 1, r :: rs =>
    if r.length ≠ 3 then .error .formatLine
    else
      match parseRecords (parseLine sid npo np) (r :: rs.take (CHUNK - 1)) with
      | .error e => .error e
      | .ok chunk =>
        match read_linesLoop sid npo np fuel (rs.drop (CHUNK - 1)) with
        | .error e => .error e
        | .ok rest => .ok (chunk ++ rest)

/-- `ReadSurf::read_lines`: chunked reading of all line records. -/
def read_lines (sid npo np : ℤ) (recs : List (List ℤ)) : Except Err (List Line) :=
  read_linesLoop sid npo np recs.length recs

/-- Vertex validation for one Triangles record (read_surf.cpp:518-519).
Note the source tests `p1 == p2 || p2 == p3` only: equality of the first and
third vertex is NOT rejected. -/
def badTriVertex (np : ℤ) (p1 p2 p3 : ℤ) : Prop :=
  p1 < 1 ∨ p1 > np ∨ p2 < 1 ∨ p2 > np ∨ p3 < 1 ∨ p3 > np ∨ p1 = p2 ∨ p2 = p3

instance (np p1 p2 p3 : ℤ) : Decidable (badTriVertex np p1 p2 p3) := by
  unfold badTriVertex; infer_instance

/-- Parse/store one Triangles record (read_surf.cpp:512-524); the `getD`
default is never relied upon, as for `parseLine`. -/
def parseTri (sid npo np : ℤ) (r : List ℤ) : Except Err Tri :=
  if badTriVertex np (r.getD 1 0) (r.getD 2 0) (r.getD 3 0) then .error .indexTri
  else .ok ⟨sid, r.getD 1 0 - 1 + npo, r.getD 2 0 - 1 + npo, r.getD 3 0 - 1 + npo⟩

/-- The chunk loop of `ReadSurf::read_tris` (read_surf.cpp:487-530); the
token-count check (`nwords != 4`) examines the first record of each chunk
(read_surf.cpp:503-510), then each record of the chunk is vertex-checked and
stored in order.  Fuel as in `read_pointsLoop`. -/
def read_trisLoop (sid npo np : ℤ) : ℕ → List (List ℤ) → Except Err (List Tri)
  | _, [] => .ok []
  | 0, _ :: _ => .ok []
  | fuel + 1, r :: rs =>
    if r.length ≠ 4 then .error .formatTri
    else
      match parseRecords (parseTri sid npo np) (r :: rs.take (CHUNK - 1)) with
      | .error e => .error e
      | .ok chunk =>
        match read_trisLoop sid npo np fuel (rs.drop (CHUNK - 1)) with
        | .error e => .error e
        | .ok rest => .ok (chunk ++ rest)

/-- `ReadSurf::read_tris`: chunked reading of all triangle records. -/
def read_tris (sid npo np : ℤ) (recs : List (List ℤ)) : Except Err (List Tri) :=
  read_trisLoop sid npo np recs.length recs

/-! ### Transform pipeline (read_surf.cpp:126-220, 543-626)

The rotation matrix is produced in the source by
`axis-angle → quaternion → 3×3 matrix` (`MathExtra`), whose entries involve
`cos/sin` of the angle.  None of the claims depends on the entries of that
matrix, only on which point components a rotation writes; the matrix-building
function is therefore a parameter `R` of the pipeline and the theorems hold
for every `R` (in particular for the real trigonometric one). -/

/-- A 3×3 matrix (row major). -/
structure Mat3 where
  m00 : ℚ
  m01 : ℚ
  m02 : ℚ
  m10 : ℚ
  m11 : ℚ
  m12 : ℚ
  m20 : ℚ
  m21 : ℚ
  m22 : ℚ
  deriving DecidableEq, Repr

/-- `MathExtra::matvec`. -/
def matvec (m : Mat3) (d0 d1 d2 : ℚ) : ℚ × ℚ × ℚ :=
  (m.m00 * d0 + m.m01 * d1 + m.m02 * d2,
   m.m10 * d0 + m.m11 * d1 + m.m12 * d2,
   m.m20 * d0 + m.m21 * d1 + m.m22 * d2)

/-- `ReadSurf::translate`: add `(dx,dy,dz)` to every new point
(read_surf.cpp:543-552); dz is added even in 2-D (callers force it to 0). -/
def translate (dx dy dz : ℚ) (pts : List Point) : List Point :=
  pts.map fun p => ⟨p.x0 + dx, p.x1 + dy, p.x2 + dz⟩

/-- `ReadSurf::scale`: scale about the origin; in 2-D `x[2]` is not written
at all (read_surf.cpp:559-568, "do not reset x[2] to avoid epsilon change"). -/
def scale (dim : ℕ) (o0 o1 o2 sx sy sz : ℚ) (pts : List Point) : List Point :=
  pts.map fun p =>
    ⟨sx * (p.x0 - o0) + o0,
     sy * (p.x1 - o1) + o1,
     if dim = 3 then sz * (p.x2 - o2) + o2 else p.x2⟩

/-- `ReadSurf::rotate` with the rotation matrix already built: rotate about
the origin; in 2-D `x[2]` is not written (read_surf.cpp:575-596). -/
def rotate (dim : ℕ) (m : Mat3) (o0 o1 o2 : ℚ) (pts : List Point) : List Point :=
  pts.map fun p =>
    let d := matvec m (p.x0 - o0) (p.x1 - o1) (p.x2 - o2)
    ⟨d.1 + o0, d.2.1 + o1, if dim = 3 then d.2.2 + o2 else p.x2⟩

/-- Endpoint swap of one line (read_surf.cpp:610-612). -/
def swapLine (l : Line) : Line := ⟨l.sid, l.p2, l.p1⟩

/-- Swap of second/third vertex of one triangle (read_surf.cpp:620-622). -/
def swapTri (t : Tri) : Tri := ⟨t.sid, t.p1, t.p3, t.p2⟩

/-- `ReadSurf::invert` (read_surf.cpp:603-626).  The 2-D branch swaps the
endpoints of the first `nline_new` new lines.  The 3-D branch of the source
also loops `for (int i = 0; i < nline_new; i++)` — it uses the LINE count,
not `ntri_new`, as its bound (read_surf.cpp:619) — so it swaps vertices of
only the first `nline_new` new triangles. -/
def invert (dim : ℕ) (nline_new : ℕ) (lines : List Line) (tris : List Tri) :
    List Line × List Tri :=
  let lines' :=
    if dim = 2 then (lines.take nline_new).map swapLine ++ lines.drop nline_new
    else lines
  let tris' :=
    if dim = 3 then (tris.take nline_new).map swapTri ++ tris.drop nline_new
    else tris
  (lines', tris')

/-- Optional transformation directives of the command
(read_surf.cpp:128-220), already tokenized (`atof` applied). -/
inductive Directive where
  | origin (ox oy oz : ℚ)
  | trans (dx dy dz : ℚ)
  | atrans (ax ay az : ℚ)
  | ftrans (fx fy fz : ℚ)
  | scale (sx sy sz : ℚ)
  | rotate (theta rx ry rz : ℚ)
  | invert
  deriving DecidableEq, Repr

/-- Mutable state of the transform pipeline: the new block of points, lines
and triangles, and the accumulated origin. -/
structure TState where
  pts : List Point
  lines : List Line
  tris : List Tri
  org0 : ℚ
  org1 : ℚ
  org2 : ℚ
  deriving DecidableEq, Repr

/-- One directive of the keyword loop of `ReadSurf::command`
(read_surf.cpp:129-220).  Every 2-D out-of-plane validity check precedes the
point update; a failed check raises
"Invalid read_surf geometry transformation for 2d simulation" and leaves the
state untouched.  `R theta rx ry rz` is the rotation matrix that
`MathExtra` would build (see the note above). -/
def applyDirective (dim : ℕ) (box : Box) (R : ℚ → ℚ → ℚ → ℚ → Mat3)
    (nline_new : ℕ) (st : TState) : Directive → TState × Option Err
  | .origin ox oy oz =>
    if dim = 2 ∧ oz ≠ 0 then (st, some .transform2d)
    else ({ st with org0 := ox, org1 := oy, org2 := oz }, none)
  | .trans dx dy dz =>
    if dim = 2 ∧ dz ≠ 0 then (st, some .transform2d)
    else ({ st with
            org0 := st.org0 + dx, org1 := st.org1 + dy, org2 := st.org2 + dz,
            pts := translate dx dy dz st.pts }, none)
  | .atrans ax ay az =>
    if dim = 2 ∧ az ≠ 0 then (st, some .transform2d)
    else
      let dx := ax - st.org0
      let dy := ay - st.org1
      let dz := az - st.org2
      ({ st with org0 := ax, org1 := ay, org2 := az,
                 pts := translate dx dy dz st.pts }, none)
  | .ftrans fx fy fz =>
    if dim = 2 ∧ fz ≠ 1/2 then (st, some .transform2d)
    else
      let ax := box.lo0 + fx * box.xprd
      let ay := box.lo1 + fy * box.yprd
      let az := if dim = 3 then box.lo2 + fz * box.zprd else 0
      let dx := ax - st.org0
      let dy := ay - st.org1
      let dz := az - st.org2
      ({ st with org0 := ax, org1 := ay, org2 := az,
                 pts := translate dx dy dz st.pts }, none)
  | .scale sx sy sz =>
    if dim = 2 ∧ sz ≠ 1 then (st, some .transform2d)
    else ({ st with pts := scale dim st.org0 st.org1 st.org2 sx sy sz st.pts },
          none)
  | .rotate theta rx ry rz =>
    if dim = 2 ∧ (rx ≠ 0 ∨ ry ≠ 0 ∨ rz ≠ 1) then (st, some .transform2d)
    else if rx = 0 ∧ ry = 0 ∧ rz = 0 then (st, some .transform2d)
    else ({ st with
            pts := rotate dim (R theta rx ry rz) st.org0 st.org1 st.org2 st.pts },
          none)
  | .invert =>
    let lt := invert dim nline_new st.lines st.tris
    ({ st with lines := lt.1, tris := lt.2 }, none)

/-- The directive loop: directives apply in the given order; the first fatal
error aborts the loop, returning the state at that moment. -/
def applyDirectives (dim : ℕ) (box : Box) (R : ℚ → ℚ → ℚ → ℚ → Mat3)
    (nline_new : ℕ) : TState → List Directive → TState × Option Err
  | st, [] => (st, none)
  | st, d :: ds =>
    match applyDirective dim box R nline_new st d with
    | (st', none) => applyDirectives dim box R nline_new st' ds
    | (st', some e) => (st', some e)

/-! ### Inside-box validator (read_surf.cpp:632-655) -/

/-- Strict-inside failure of one point: some coordinate `<= boxlo` or
`>= boxhi` (read_surf.cpp:643-645). -/
def ptOutside (box : Box) (p : Point) : Prop :=
  p.x0 ≤ box.lo0 ∨ p.x0 ≥ box.hi0 ∨
  p.x1 ≤ box.lo1 ∨ p.x1 ≥ box.hi1 ∨
  p.x2 ≤ box.lo2 ∨ p.x2 ≥ box.hi2

instance (box : Box) (p : Point) : Decidable (ptOutside box p) := by
  unfold ptOutside; infer_instance

/-- `ReadSurf::check_point_inside`: count the new points failing the
strict-inside test; a nonzero count is fatal, reporting the count. -/
def check_point_inside (box : Box) (pts : List Point) : Option Err :=
  let nbad := pts.countP fun p => decide (ptOutside box p)
  if nbad ≠ 0 then some (.notInside nbad) else none

/-! ### 2-D watertightness validator (read_surf.cpp:858-894) -/

/-- Increment a tally at one key (`count[p]++`). -/
def bumpAt (f : ℤ → ℕ) (k : ℤ) : ℤ → ℕ :=
  fun v => if v = k then f v + 1 else f v

/-- `count[I]` after the loop of read_surf.cpp:868-875: the number of line
endpoints equal to new-block point `I` (indices shifted by `- npoint_old`). -/
def vcount (npo : ℤ) (lines : List Line) : ℤ → ℕ :=
  lines.foldl (fun f L => bumpAt (bumpAt f (L.p1 - npo)) (L.p2 - npo))
    (fun _ => 0)

/-- `ReadSurf::check_watertight_2d`: every new point must be an endpoint of
exactly 2 new lines; the number of points whose tally differs from 2 is
reported, nonzero being fatal. -/
def check_watertight_2d (npo : ℤ) (np : ℕ) (lines : List Line) : Option Err :=
  let nbad := (List.range np).countP fun i : ℕ => decide (vcount npo lines (i : ℤ) ≠ 2)
  if nbad ≠ 0 then some (.notWatertight nbad) else none

/-! ### 3-D watertightness validator (read_surf.cpp:901-1044) -/

/-- The per-vertex edge-incidence tally of read_surf.cpp:913-922: for each
triangle edge, increment the tally of its lower-indexed endpoint. -/
def ecountmaxRaw (npo : ℤ) (tris : List Tri) : ℤ → ℕ :=
  tris.foldl
    (fun f t =>
      let p1 := t.p1 - npo
      let p2 := t.p2 - npo
      let p3 := t.p3 - npo
      bumpAt (bumpAt (bumpAt f (min p1 p2)) (min p2 p3)) (min p3 p1))
    (fun _ => 0)

/-- `ecountmax[I]`: the incidence tally divided by 2 (integer division,
read_surf.cpp:924) — the capacity of vertex `I`'s neighbor list. -/
def ecountmax (npo : ℤ) (tris : List Tri) : ℤ → ℕ :=
  fun v => ecountmaxRaw npo tris v / 2

/-- State of the edge-population loop: per lower endpoint, the list of
`(other endpoint, multiplicity)` entries (`edge[I][J]`, `count[I][J]`, with
`ecount[I]` the list length), plus the running tally `nbad1` of insertions
rejected for exhausted capacity. -/
structure WtState where
  tbl : ℤ → List (ℤ × ℕ)
  nbad1 : ℕ

/-- Linear scan of a neighbor list (read_surf.cpp:957-958): if `pj` is
present, increment its multiplicity and return the updated list. -/
def scanBump : List (ℤ × ℕ) → ℤ → Option (List (ℤ × ℕ))
  | [], _ => none
  | (e, c) :: rest, pj =>
    if e = pj then some ((e, c + 1) :: rest)
    else (scanBump rest pj).map fun l => (e, c) :: l

/-- Process one undirected edge `{pi,pj}` recorded at its lower endpoint
(read_surf.cpp:955-966): found → increment multiplicity; absent with
capacity left → append with multiplicity 1; absent with capacity exhausted →
`nbad1++`. -/
def processEdge (emax : ℤ → ℕ) (st : WtState) (pa pb : ℤ) : WtState :=
  let pi := min pa pb
  let pj := max pa pb
  match scanBump (st.tbl pi) pj with
  | some l' => { st with tbl := fun v => if v = pi then l' else st.tbl v }
  | none =>
    if (st.tbl pi).length = emax pi then { st with nbad1 := st.nbad1 + 1 }
    else { st with
           tbl := fun v => if v = pi then st.tbl pi ++ [(pj, 1)] else st.tbl v }

/-- The three edges of one triangle (read_surf.cpp:950-995). -/
def processTri (npo : ℤ) (emax : ℤ → ℕ) (st : WtState) (t : Tri) : WtState :=
  let p1 := t.p1 - npo
  let p2 := t.p2 - npo
  let p3 := t.p3 - npo
  processEdge emax (processEdge emax (processEdge emax st p1 p2) p2 p3) p3 p1

/-- The full edge-population loop over all new triangles. -/
def wtPopulate (npo : ℤ) (tris : List Tri) : WtState :=
  tris.foldl (processTri npo (ecountmax npo tris)) ⟨fun _ => [], 0⟩

/-- Number of edge insertions rejected because the lower endpoint's
neighbor-list capacity was exhausted (`nbad1`, read_surf.cpp:948-995). -/
def wtRejected (npo : ℤ) (tris : List Tri) : ℕ :=
  (wtPopulate npo tris).nbad1

/-- Number of recorded edges whose final multiplicity is neither 2 nor 4
(`nbad2`, read_surf.cpp:1024-1027). -/
def wtBadMult (npo : ℤ) (np : ℕ) (tris : List Tri) : ℕ :=
  ((List.range np).map fun i : ℕ =>
    ((wtPopulate npo tris).tbl (i : ℤ)).countP fun e =>
      decide (e.2 ≠ 2 ∧ e.2 ≠ 4)).sum

/-- `ReadSurf::check_watertight_3d`: both failure kinds are merged into one
tally `nbad = nbad1 + nbad2`; nonzero is fatal, reporting the tally
(read_surf.cpp:1038-1043). -/
def check_watertight_3d (npo : ℤ) (np : ℕ) (tris : List Tri) : Option Err :=
  let nbad := wtRejected npo tris + wtBadMult npo np tris
  if nbad ≠ 0 then some (.notWatertight nbad) else none

/-! ### Proximity validator (`ReadSurf::check_point_pairs`, read_surf.cpp:662-852)

The bin counts come from `sqrt(vol/N)` (2-D) or `pow(vol/N, 1/3)` (3-D),
the one place where the source computes an irrational quantity; those counts
are produced by real-valued sizing functions below.  Once the counts are
fixed the source resets the bin sizes to `prd/nbin`, which is exact rational
arithmetic, so the two binning/counting passes are an executable core.

The `binhead`/`bin` singly-linked membership structure of the source holds,
for each bin, exactly the points whose floor-bin index is that bin, in
decreasing index order (points are inserted in increasing index order at the
head of their bin's chain); the nested traversal of read_surf.cpp:771-787
visits every unordered pair of points sharing a chain exactly once.  `chainOf`
below is that chain and `chainPairs` that traversal. -/

/-- `EPSILON` from read_surf.cpp (1.0e-6). -/
def EPS : ℚ := 1 / 1000000

/-- `epsilon`: EPSILON times the shortest box edge (z ignored in 2-D),
read_surf.cpp:674-676. -/
def epsilonOf (dim : ℕ) (box : Box) : ℚ :=
  (if dim = 3 then min (min box.xprd box.yprd) box.zprd
   else min box.xprd box.yprd) * EPS

/-- Squared distance of two points (read_surf.cpp:778-781). -/
def distsq (p q : Point) : ℚ :=
  (p.x0 - q.x0) * (p.x0 - q.x0) + (p.x1 - q.x1) * (p.x1 - q.x1) +
    (p.x2 - q.x2) * (p.x2 - q.x2)

/-- Bucket of one point: `floor((coord - origin) * inv_binsize)` per axis
(read_surf.cpp:740-742). -/
def binIdx (o0 o1 o2 xbi ybi zbi : ℚ) (p : Point) : ℤ × ℤ × ℤ :=
  (⌊(p.x0 - o0) * xbi⌋, ⌊(p.x1 - o1) * ybi⌋, ⌊(p.x2 - o2) * zbi⌋)

/-- The chain of bin `b`: the points binned there, in decreasing index order
(head insertion while looping over increasing indices). -/
def chainOf (binf : ℕ → ℤ × ℤ × ℤ) (np : ℕ) (b : ℤ × ℤ × ℤ) : List ℕ :=
  ((List.range np).filter fun m => decide (binf m = b)).reverse

/-- The nested chain traversal: each list head against every later element. -/
def chainPairs : List ℕ → List (ℕ × ℕ)
  | [] => []
  | m :: rest => (rest.map fun n => (m, n)) ++ chainPairs rest

/-- The bins scanned by the triple loop of read_surf.cpp:771-773:
`[0,nbinx) × [0,nbiny) × [0,nbinz)`. -/
def scannedBins (nbx nby nbz : ℕ) : List (ℤ × ℤ × ℤ) :=
  (List.range nbx).flatMap fun i =>
    (List.range nby).flatMap fun j =>
      (List.range nbz).map fun k => ((i : ℤ), (j : ℤ), (k : ℤ))

/-- Point `m` of the new block (out-of-range access is irrelevant: the source
only ever indexes the new block). -/
def ptAt (pts : List Point) (m : ℕ) : Point :=
  pts.getD m ⟨0, 0, 0⟩

/-- The bad pairs counted by one binning pass: all same-bin pairs whose
squared distance is below `epssq`. -/
def passBad (pts : List Point) (epssq : ℚ) (nbx nby nbz : ℕ)
    (o0 o1 o2 xbi ybi zbi : ℚ) : List (ℕ × ℕ) :=
  ((scannedBins nbx nby nbz).flatMap fun b =>
      chainPairs (chainOf (fun m => binIdx o0 o1 o2 xbi ybi zbi (ptAt pts m))
        pts.length b)).filter
    fun mn => decide (distsq (ptAt pts mn.1) (ptAt pts mn.2) < epssq)

/-- The inverse bin size of one axis after the counts are final:
`1.0 / (prd / nbin)` (read_surf.cpp:712-717). -/
def binInv (prd : ℚ) (nb : ℕ) : ℚ := 1 / (prd / nb)

/-- The pass-2 bin origin of one axis: offset by half a bin unless the axis
has a single bin (read_surf.cpp:803-808). -/
def pass2origin (lo prd : ℚ) (nb : ℕ) : ℚ :=
  if nb = 1 then lo else lo - (prd / nb) / 2

/-- Bad pairs of the box-aligned pass (read_surf.cpp:734-787). -/
def pass1Bad (nbx nby nbz : ℕ) (box : Box) (pts : List Point) (epssq : ℚ) :
    List (ℕ × ℕ) :=
  passBad pts epssq nbx nby nbz box.lo0 box.lo1 box.lo2
    (binInv box.xprd nbx) (binInv box.yprd nby) (binInv box.zprd nbz)

/-- Bad pairs of the half-cell-offset pass (read_surf.cpp:798-840). -/
def pass2Bad (nbx nby nbz : ℕ) (box : Box) (pts : List Point) (epssq : ℚ) :
    List (ℕ × ℕ) :=
  passBad pts epssq nbx nby nbz
    (pass2origin box.lo0 box.xprd nbx) (pass2origin box.lo1 box.yprd nby)
    (pass2origin box.lo2 box.zprd nbz)
    (binInv box.xprd nbx) (binInv box.yprd nby) (binInv box.zprd nbz)

/-- The two binning passes, given the final bin counts: pass 1 is box
aligned; pass 2 offsets the origin by half a bin on every axis that has more
than one bin (read_surf.cpp:727-846).  A nonzero bad-pair count in either
pass is fatal, reporting the count. -/
def check_point_pairs_core (nbx nby nbz : ℕ) (box : Box) (pts : List Point)
    (epssq : ℚ) : Option Err :=
  let bad1 := pass1Bad nbx nby nbz box pts epssq
  if bad1.length ≠ 0 then some (.tooClose bad1.length)
  else
    let bad2 := pass2Bad nbx nby nbz box pts epssq
    if bad2.length ≠ 0 then some (.tooClose bad2.length) else none

/-- Initial bin edge in 2-D: `sqrt(xprd*yprd/N)` (read_surf.cpp:690-691). -/
noncomputable def binSize2d (xp yp : ℚ) (np : ℕ) : ℝ :=
  Real.sqrt ((xp * yp : ℚ) / (np : ℕ))

/-- Initial bin edge in 3-D: `pow(xprd*yprd*zprd/N, 1/3)`
(read_surf.cpp:698-700). -/
noncomputable def binSize3d (xp yp zp : ℚ) (np : ℕ) : ℝ :=
  ((xp * yp * zp : ℚ) / (np : ℕ) : ℝ) ^ ((1 : ℝ) / 3)

/-- `static_cast<int>(prd / bin)`: truncation toward zero equals the floor
for the nonnegative values arising here (read_surf.cpp:692-703). -/
noncomputable def nbin0 (prd : ℚ) (s : ℝ) : ℤ := ⌊(prd : ℝ) / s⌋

/-- The bin-count adjustment of read_surf.cpp:704-711: a zero count becomes
1; a count above 1 gains one extra bin for the offset pass. -/
def adjust (n : ℤ) : ℕ :=
  (if (if n = 0 then 1 else n) > 1 then (if n = 0 then 1 else n) + 1
   else (if n = 0 then 1 else n)).toNat

/-- `ReadSurf::check_point_pairs`: sizing (per dimension) followed by the
two-pass core, with `epssq = epsilon^2`. -/
noncomputable def check_point_pairs (dim : ℕ) (box : Box) (pts : List Point) :
    Option Err :=
  let eps := epsilonOf dim box
  if dim = 2 then
    let s := binSize2d box.xprd box.yprd pts.length
    check_point_pairs_core (adjust (nbin0 box.xprd s)) (adjust (nbin0 box.yprd s))
      1 box pts (eps * eps)
  else
    let s := binSize3d box.xprd box.yprd box.zprd pts.length
    check_point_pairs_core (adjust (nbin0 box.xprd s)) (adjust (nbin0 box.yprd s))
      (adjust (nbin0 box.zprd s)) box pts (eps * eps)

/-! ### Spec-side definitions used to state the claims -/

/-- The number of new line segments having new-block point `i` as an
endpoint (the spec's notion of degree of a point). -/
def degree2d (npo : ℤ) (lines : List Line) (i : ℤ) : ℕ :=
  lines.countP fun L => decide (L.p1 - npo = i ∨ L.p2 - npo = i)

/-- Fueled selection of the first record of each CHUNK-sized batch,
mirroring the chunk loops of the readers. -/
def chunkHeadsLoop {α : Type} : ℕ → List α → List α
  | _, [] => []
  | 0, _ :: _ => []
  | fuel + 1, r :: rs => r :: chunkHeadsLoop fuel (rs.drop (CHUNK - 1))

/-- The first record of each CHUNK-sized batch, i.e. exactly the records
whose token count the readers inspect. -/
def chunkHeads {α : Type} (recs : List α) : List α :=
  chunkHeadsLoop recs.length recs

/-- A Points record whose token count mismatches the active dimensionality
(3 tokens in 2-D, 4 in 3-D). -/
def wrongPointTokens (dim : ℕ) (r : List ℚ) : Prop :=
  (dim = 2 ∧ r.length ≠ 3) ∨ (dim = 3 ∧ r.length ≠ 4)

instance (dim : ℕ) (r : List ℚ) : Decidable (wrongPointTokens dim r) := by
  unfold wrongPointTokens; infer_instance

/-- Concrete configuration probing the proximity validator: the unit 2-D
box (z bounds as in a flat 2-D domain). -/
def probeBox : Box := ⟨0, 0, -1/2, 1, 1, 1/2⟩

/-- Five new points for `probeBox`: with 5 points the sizing picks 3×3 bins
of edge 1/3, and `epsilon = 1e-6`.  The first two points lie at distance
exactly `epsilon/2`, placed diagonally across the crossing of a pass-1
x-cell boundary (x = 1/3) and a pass-2 y-cell boundary (y = 1/2); the other
three are far from everything. -/
def probePts : List Point :=
  [⟨1/3 - 3/20000000, 1/2 - 1/5000000, 0⟩,
   ⟨1/3 + 3/20000000, 1/2 + 1/5000000, 0⟩,
   ⟨1/10, 1/10, 0⟩, ⟨4/5, 1/10, 0⟩, ⟨1/10, 4/5, 0⟩]

/-! ### The command (`ReadSurf::command`, read_surf.cpp:55-277)

The file is modelled post-tokenization: the header counts are the record-list
lengths (the source reads exactly the announced number of records; a
mismatch is a coordinator-side end-of-input abort, out of scope here), and
the two section-keyword comparisons are the booleans `kwPointsOk` /
`kwSecondOk`.  `surf->surf_exist = 1` and `surf->add_id` mutate the store
before any parsing (read_surf.cpp:60-68); everything else is local until the
commit of read_surf.cpp:265-271. -/

/-- Lift a validator result into the error monad. -/
def liftCheck : Option Err → Except Err Unit
  | some e => .error e
  | none => .ok ()

/-- The body of `ReadSurf::command` after the initial store mutations:
header validation, the two sections, the directive loop, the three
validators, then the commit merging the new block into the store `s0`. -/
noncomputable def commandBody (s : Surf) (dim : ℕ) (box : Box) (sid : ℤ)
    (kwPointsOk kwSecondOk : Bool) (ptRecs : List (List ℚ))
    (lineRecs triRecs : List (List ℤ)) (dirs : List Directive)
    (R : ℚ → ℚ → ℚ → ℚ → Mat3) (s0 : Surf) : Except Err Surf := do
  let npoint_new := ptRecs.length
  let nline_new := if dim = 2 then lineRecs.length else 0
  let ntri_new := if dim = 3 then triRecs.length else 0
  -- header (read_surf.cpp:330-347)
  if dim = 3 ∧ lineRecs ≠ [] then throw .headerLines3d
  if dim = 2 ∧ triRecs ≠ [] then throw .headerTris2d
  if npoint_new = 0 then throw .headerNoPoints
  if dim = 2 ∧ nline_new = 0 then throw .headerNoLines
  if dim = 3 ∧ ntri_new = 0 then throw .headerNoTris
  -- sections (read_surf.cpp:101-115)
  if ¬kwPointsOk then throw .keywordPoints
  let newpts ← read_points dim ptRecs
  if ¬kwSecondOk then throw .keywordSecond
  let newlines ← if dim = 2 then read_lines sid s.npoint npoint_new lineRecs
                 else pure []
  let newtris ← if dim = 2 then pure []
                else read_tris sid s.npoint npoint_new triRecs
  -- transformations (read_surf.cpp:126-220)
  match applyDirectives dim box R nline_new ⟨newpts, newlines, newtris, 0, 0, 0⟩
      dirs with
  | (_, some e) => throw e
  | (st, none) =>
    -- validators (read_surf.cpp:258-261)
    liftCheck (check_point_inside box st.pts)
    liftCheck (check_point_pairs dim box st.pts)
    if dim = 2 then liftCheck (check_watertight_2d (s.npoint : ℤ) npoint_new st.lines)
    if dim = 3 then liftCheck (check_watertight_3d (s.npoint : ℤ) npoint_new st.tris)
    -- commit (read_surf.cpp:265-271)
    pure { s0 with
           pts := s.pts ++ st.pts
           lines := s.lines ++ st.lines
           tris := s.tris ++ st.tris
           npoint := s.npoint + npoint_new
           nline := s.nline + nline_new
           ntri := s.ntri + ntri_new }

/-- `ReadSurf::command`: sets `surf_exist` and registers the surface id, then
runs the body; a fatal error at any later point leaves the store at `s0`
(geometry untouched), success commits the merged store. -/
noncomputable def command (s : Surf) (dim : ℕ) (box : Box) (sid : ℤ)
    (kwPointsOk kwSecondOk : Bool) (ptRecs : List (List ℚ))
    (lineRecs triRecs : List (List ℤ)) (dirs : List Directive)
    (R : ℚ → ℚ → ℚ → ℚ → Mat3) : Surf × Option Err :=
  let s0 : Surf := { s with surfExist := true, ids := s.ids ++ [sid] }
  match commandBody s dim box sid kwPointsOk kwSecondOk ptRecs lineRecs triRecs
      dirs R s0 with
  | .error e => (s0, some e)
  | .ok s1 => (s1, none)

/-! ## Theorems -/

/-- C10: supplying the zero vector as rotation axis to the rotate directive
is rejected (with the fatal 2-D-transformation error of read_surf.cpp:211-213,
which is raised in either dimensionality) before `rotate()` is entered: the
state — in particular every point coordinate — is returned unchanged, so the
axis normalization inside `rotate` is never executed with a zero-length
axis. -/
theorem rotate_zero_axis_rejected (dim : ℕ) (box : Box)
    (R : ℚ → ℚ → ℚ → ℚ → Mat3) (nline_new : ℕ) (st : TState) (theta : ℚ) :
    applyDirective dim box R nline_new st (.rotate theta 0 0 0) =
      (st, some .transform2d) := by
  by_cases h : dim = 2 <;> simp [applyDirective, h]

/-- C3 (failing input): in 3-D the invert loop of read_surf.cpp:617-625 runs
`nline_new` times — the LINE count, which is 0 for every 3-D run since a 3-D
header may not contain a line count — so a new triangle is left unchanged
even though swapping its second and third vertex would change it. -/
theorem invert_3d_noop :
    applyDirective 3 ⟨0, 0, 0, 1, 1, 1⟩ (fun _ _ _ _ => ⟨1, 0, 0, 0, 1, 0, 0, 0, 1⟩)
        0 ⟨[], [], [⟨7, 0, 1, 2⟩], 0, 0, 0⟩ .invert =
      (⟨[], [], [⟨7, 0, 1, 2⟩], 0, 0, 0⟩, none) ∧
    swapTri ⟨7, 0, 1, 2⟩ ≠ ⟨7, 0, 1, 2⟩ := by
  constructor
  · rfl
  · decide

/-- C5: the 3-D watertightness check fails — with the merged tally as the
reported count — if and only if the number of recorded edges whose final
multiplicity is neither 2 nor 4 plus the number of capacity-rejected edge
insertions is nonzero. -/
theorem watertight3d_fails_iff_tally (npo : ℤ) (np : ℕ) (tris : List Tri) :
    (∀ n, check_watertight_3d npo np tris = some (.notWatertight n) ↔
       n = wtRejected npo tris + wtBadMult npo np tris ∧ n ≠ 0) ∧
    (check_watertight_3d npo np tris = none ↔
       wtRejected npo tris + wtBadMult npo np tris = 0) := by
  by_cases hc : wtRejected npo tris + wtBadMult npo np tris = 0 <;>
    constructor <;>
    simp [check_watertight_3d, hc, eq_comm]

/-- A closed tetrahedron (4 points, 4 triangles, each of the 6 edges shared
by exactly 2 triangles) passes the 3-D watertightness check. -/
theorem watertight3d_tetrahedron :
    check_watertight_3d 0 4 [⟨7, 0, 1, 2⟩, ⟨7, 0, 3, 1⟩, ⟨7, 1, 3, 2⟩, ⟨7, 0, 2, 3⟩] =
      none := by decide

/-- Removing one face of the tetrahedron leaves 3 edges of multiplicity 1:
exactly 3 reported failures. -/
theorem watertight3d_open_tetrahedron :
    check_watertight_3d 0 4 [⟨7, 0, 1, 2⟩, ⟨7, 0, 3, 1⟩, ⟨7, 1, 3, 2⟩] =
      some (.notWatertight 3) := by decide

/-- C1: whenever `ReadSurf::command` aborts with a fatal error — in
particular when a validator fails — the store's committed geometry (its
point/line/triangle collections and counts) is exactly what it was before
the command: nothing is partially applied. -/
theorem command_error_leaves_store (s : Surf) (dim : ℕ) (box : Box) (sid : ℤ)
    (kwP kwS : Bool) (ptRecs : List (List ℚ)) (lineRecs triRecs : List (List ℤ))
    (dirs : List Directive) (R : ℚ → ℚ → ℚ → ℚ → Mat3) (e : Err)
    (h : (command s dim box sid kwP kwS ptRecs lineRecs triRecs dirs R).2 = some e) :
    (command s dim box sid kwP kwS ptRecs lineRecs triRecs dirs R).1.pts = s.pts ∧
    (command s dim box sid kwP kwS ptRecs lineRecs triRecs dirs R).1.lines = s.lines ∧
    (command s dim box sid kwP kwS ptRecs lineRecs triRecs dirs R).1.tris = s.tris ∧
    (command s dim box sid kwP kwS ptRecs lineRecs triRecs dirs R).1.npoint = s.npoint ∧
    (command s dim box sid kwP kwS ptRecs lineRecs triRecs dirs R).1.nline = s.nline ∧
    (command s dim box sid kwP kwS ptRecs lineRecs triRecs dirs R).1.ntri = s.ntri := by
  unfold command at h ⊢
  cases hb : commandBody s dim box sid kwP kwS ptRecs lineRecs triRecs dirs R
      { s with surfExist := true, ids := s.ids ++ [sid] } with
  | error e2 => simp [hb]
  | ok s1 => simp [hb] at h

/-- Witness for C1: a concrete 2-D run whose inside-box validator fails (one
new point lies on the domain boundary) against a store already holding one
point and one line; the command reports the failure and the store's
geometry is unchanged. -/
theorem command_error_leaves_store_witness :
    (command ⟨false, [3], [⟨1, 1, 0⟩], [⟨3, 0, 0⟩], [], 1, 1, 0⟩ 2
        ⟨0, 0, -1, 2, 2, 1⟩ 5 true true [[9, 0, 1], [9, 1, 1]]
        [[9, 1, 2]] [] [] (fun _ _ _ _ => ⟨1, 0, 0, 0, 1, 0, 0, 0, 1⟩)).2 =
      some (.notInside 1) ∧
    (command ⟨false, [3], [⟨1, 1, 0⟩], [⟨3, 0, 0⟩], [], 1, 1, 0⟩ 2
        ⟨0, 0, -1, 2, 2, 1⟩ 5 true true [[9, 0, 1], [9, 1, 1]]
        [[9, 1, 2]] [] [] (fun _ _ _ _ => ⟨1, 0, 0, 0, 1, 0, 0, 0, 1⟩)).1.pts =
      [⟨1, 1, 0⟩] := by
  have h : (command ⟨false, [3], [⟨1, 1, 0⟩], [⟨3, 0, 0⟩], [], 1, 1, 0⟩ 2
      ⟨0, 0, -1, 2, 2, 1⟩ 5 true true [[9, 0, 1], [9, 1, 1]]
      [[9, 1, 2]] [] [] (fun _ _ _ _ => ⟨1, 0, 0, 0, 1, 0, 0, 0, 1⟩)).2 =
      some (.notInside 1) := by rfl
  refine ⟨h, ?_⟩
  have := command_error_leaves_store ⟨false, [3], [⟨1, 1, 0⟩], [⟨3, 0, 0⟩], [], 1, 1, 0⟩
    2 ⟨0, 0, -1, 2, 2, 1⟩ 5 true true [[9, 0, 1], [9, 1, 1]]
    [[9, 1, 2]] [] [] (fun _ _ _ _ => ⟨1, 0, 0, 0, 1, 0, 0, 0, 1⟩) (.notInside 1) h
  exact this.1

/-- C8: the inside-box check fails — reporting the number of offending
points — if and only if some new point has a coordinate `<=` the box lower
bound or `>=` the box upper bound; in particular a point lying exactly on
the boundary (`x == boxlo[0]`) fails the strict-inside check. -/
theorem inside_check_iff (box : Box) (pts : List Point) :
    ((∃ n, check_point_inside box pts = some (.notInside n)) ↔
       ∃ p ∈ pts, ptOutside box p) ∧
    (∀ n, check_point_inside box pts = some (.notInside n) →
       n = pts.countP fun p => decide (ptOutside box p)) ∧
    (∀ p ∈ pts, p.x0 = box.lo0 →
       ∃ n, check_point_inside box pts = some (.notInside n)) := by
  have hcount : (pts.countP fun p => decide (ptOutside box p)) ≠ 0 ↔
      ∃ p ∈ pts, ptOutside box p := by
    rw [Ne, List.countP_eq_zero]
    push_neg
    simp
  have hmain : (∃ n, check_point_inside box pts = some (.notInside n)) ↔
      ∃ p ∈ pts, ptOutside box p := by
    constructor
    · rintro ⟨n, hn⟩
      unfold check_point_inside at hn
      by_cases hc : (pts.countP fun p => decide (ptOutside box p)) = 0
      · simp [hc] at hn
      · exact hcount.mp hc
    · intro hex
      have hc := hcount.mpr hex
      exact ⟨pts.countP fun p => decide (ptOutside box p),
        by unfold check_point_inside; simp [hc]⟩
  refine ⟨hmain, ?_, ?_⟩
  · intro n hn
    unfold check_point_inside at hn
    by_cases hc : (pts.countP fun p => decide (ptOutside box p)) = 0 <;>
      simp [hc] at hn
    exact hn.symm
  · intro p hp hx
    exact hmain.mpr ⟨p, hp, Or.inl (le_of_eq hx)⟩

/-- Witness for C8: a point with `x == boxlo[0]` makes the inside-box check
fail. -/
theorem inside_check_iff_witness :
    ∃ n, check_point_inside ⟨0, 0, -1, 2, 2, 1⟩ [⟨0, 1, 0⟩] =
      some (.notInside n) :=
  (inside_check_iff ⟨0, 0, -1, 2, 2, 1⟩ [⟨0, 1, 0⟩]).2.2 ⟨0, 1, 0⟩ (by simp) rfl

/-- The endpoint tally of `check_watertight_2d` counts, for each vertex, the
occurrences of that vertex among the `p1` endpoints plus those among the
`p2` endpoints. -/
theorem vcount_loop_eq (npo v : ℤ) :
    ∀ (lines : List Line) (f : ℤ → ℕ),
      lines.foldl (fun g L => bumpAt (bumpAt g (L.p1 - npo)) (L.p2 - npo)) f v =
        f v + (lines.countP fun L => decide (L.p1 - npo = v)) +
          (lines.countP fun L => decide (L.p2 - npo = v))
  | [], f => by simp
  | L :: ls, f => by
    rw [List.foldl_cons, vcount_loop_eq npo v ls]
    simp only [List.countP_cons, bumpAt]
    by_cases h1 : L.p1 - npo = v <;> by_cases h2 : L.p2 - npo = v
    · simp [h1, h2]
      omega
    · rw [if_neg fun hh => h2 hh.symm]
      simp [h1, h2]
      omega
    · rw [if_pos h2.symm, if_neg fun hh => h1 hh.symm]
      simp [h1, h2]
      omega
    · rw [if_neg fun hh => h2 hh.symm, if_neg fun hh => h1 hh.symm]
      simp [h1, h2]

/-- With distinct endpoints, counting lines having `v` as some endpoint
splits into the per-endpoint counts. -/
theorem countP_endpoints_or (npo v : ℤ) :
    ∀ (lines : List Line), (∀ L ∈ lines, L.p1 ≠ L.p2) →
      (lines.countP fun L => decide (L.p1 - npo = v ∨ L.p2 - npo = v)) =
        (lines.countP fun L => decide (L.p1 - npo = v)) +
          (lines.countP fun L => decide (L.p2 - npo = v))
  | [], _ => by simp
  | L :: ls, hnd => by
    have hL : L.p1 ≠ L.p2 := hnd L (by simp)
    have ih := countP_endpoints_or npo v ls fun M hM => hnd M (List.mem_cons_of_mem _ hM)
    simp only [List.countP_cons, ih]
    by_cases h1 : L.p1 - npo = v <;> by_cases h2 : L.p2 - npo = v
    · exact absurd (by omega : L.p1 = L.p2) hL
    · simp [h1, h2]; omega
    · simp [h1, h2]; omega
    · simp [h1, h2]

/-- For lines whose endpoints are distinct (as every parsed line's are), the
endpoint tally of a vertex equals the number of line segments having it as
an endpoint. -/
theorem vcount_eq_degree (npo : ℤ) (lines : List Line)
    (hnd : ∀ L ∈ lines, L.p1 ≠ L.p2) (v : ℤ) :
    vcount npo lines v = degree2d npo lines v := by
  unfold vcount degree2d
  rw [vcount_loop_eq, countP_endpoints_or npo v lines hnd]
  simp

/-- C6: the 2-D watertightness check fails if and only if some new point is
an endpoint of a number of new segments different from 2, and the reported
count is exactly the number of such points. -/
theorem watertight2d_fails_iff (npo : ℤ) (np : ℕ) (lines : List Line)
    (hnd : ∀ L ∈ lines, L.p1 ≠ L.p2) :
    ((check_watertight_2d npo np lines).isSome ↔
       ∃ i < np, degree2d npo lines (i : ℤ) ≠ 2) ∧
    (∀ n, check_watertight_2d npo np lines = some (.notWatertight n) →
       n = (List.range np).countP fun i : ℕ => decide (degree2d npo lines (i : ℤ) ≠ 2)) := by
  have hcongr : ((List.range np).countP fun i : ℕ => decide (vcount npo lines (i : ℤ) ≠ 2)) =
      (List.range np).countP fun i : ℕ => decide (degree2d npo lines (i : ℤ) ≠ 2) := by
    refine List.countP_congr fun i _ => ?_
    simp [vcount_eq_degree npo lines hnd]
  have hzero : ((List.range np).countP fun i : ℕ => decide (degree2d npo lines (i : ℤ) ≠ 2)) ≠ 0 ↔
      ∃ i < np, degree2d npo lines (i : ℤ) ≠ 2 := by
    rw [Ne, List.countP_eq_zero]
    push_neg
    simp [List.mem_range]
  constructor
  · unfold check_watertight_2d
    rw [hcongr, ← hzero]
    dsimp only
    by_cases hc : ((List.range np).countP fun i : ℕ => decide (degree2d npo lines (i : ℤ) ≠ 2)) = 0
    · rw [if_neg fun hk => hk hc]
      exact iff_of_false (by simp) fun h => h hc
    · rw [if_pos hc]
      exact iff_of_true rfl hc
  · intro n hn
    unfold check_watertight_2d at hn
    rw [hcongr] at hn
    dsimp only at hn
    by_cases hc : ((List.range np).countP fun i : ℕ => decide (degree2d npo lines (i : ℤ) ≠ 2)) = 0
    · rw [if_neg fun hk => hk hc] at hn
      exact Option.noConfusion hn
    · rw [if_pos hc] at hn
      have h1 := Option.some.inj hn
      injection h1 with h2
      exact h2.symm

/-- Witness for C6: a pentagon missing one segment (5 points, 4 segments)
fails, with 2 points of degree 1 reported: exactly 2 failures. -/
theorem watertight2d_fails_iff_witness :
    (check_watertight_2d 0 5 [⟨7, 0, 1⟩, ⟨7, 1, 2⟩, ⟨7, 2, 3⟩, ⟨7, 3, 4⟩]).isSome ∧
    check_watertight_2d 0 5 [⟨7, 0, 1⟩, ⟨7, 1, 2⟩, ⟨7, 2, 3⟩, ⟨7, 3, 4⟩] =
      some (.notWatertight 2) :=
  ⟨(watertight2d_fails_iff 0 5 [⟨7, 0, 1⟩, ⟨7, 1, 2⟩, ⟨7, 2, 3⟩, ⟨7, 3, 4⟩]
      (by decide)).1.mpr ⟨0, by omega, by decide⟩,
   by decide⟩

/-- A 2-D square (4 points, 4 segments) passes the watertightness check. -/
theorem watertight2d_square :
    check_watertight_2d 0 4 [⟨7, 0, 1⟩, ⟨7, 1, 2⟩, ⟨7, 2, 3⟩, ⟨7, 3, 0⟩] = none := by
  decide

/-- Every point parsed in 2-D has z coordinate exactly 0
(read_surf.cpp:397). -/
theorem read_pointsLoop_2d_z :
    ∀ (fuel : ℕ) (recs : List (List ℚ)) (pts : List Point),
      read_pointsLoop 2 fuel recs = .ok pts → ∀ p ∈ pts, p.x2 = 0
  | fuel, [], pts => by
    intro h
    cases fuel <;>
    · unfold read_pointsLoop at h
      cases h
      simp
  | 0, r :: rs, pts => by
    intro h
    unfold read_pointsLoop at h
    cases h
    simp
  | fuel + 1, r :: rs, pts => by
    intro h p hp
    unfold read_pointsLoop at h
    split_ifs at h
    cases hrec : read_pointsLoop 2 fuel (rs.drop (CHUNK - 1)) with
    | error e => rw [hrec] at h; exact Option.noConfusion (congrArg (fun x => x.toOption) h)
    | ok rest =>
      rw [hrec] at h
      cases h
      rcases List.mem_append.mp hp with hmem | hmem
      · rcases List.mem_map.mp hmem with ⟨r2, -, hr2⟩
        rw [← hr2]
        rfl
      · exact read_pointsLoop_2d_z fuel (rs.drop (CHUNK - 1)) rest hrec p hmem

/-- A translation with zero z offset keeps every z coordinate at 0. -/
theorem translate_z (dx dy dz : ℚ) (hdz : dz = 0) (pts : List Point)
    (hz : ∀ p ∈ pts, p.x2 = 0) : ∀ p ∈ translate dx dy dz pts, p.x2 = 0 := by
  intro p hp
  rcases List.mem_map.mp hp with ⟨q, hq, rfl⟩
  simp [hdz, hz q hq]

/-- One accepted directive of a 2-D run keeps the accumulated origin's z at
0 and every new point's z at exactly 0; a rejected directive leaves the
state untouched, preserving both as well. -/
theorem applyDirective_2d_z (box : Box) (R : ℚ → ℚ → ℚ → ℚ → Mat3)
    (nline : ℕ) (st : TState) (d : Directive)
    (h2 : st.org2 = 0) (hz : ∀ p ∈ st.pts, p.x2 = 0) :
    (applyDirective 2 box R nline st d).1.org2 = 0 ∧
      ∀ p ∈ (applyDirective 2 box R nline st d).1.pts, p.x2 = 0 := by
  cases d with
  | origin ox oy oz =>
    by_cases hoz : oz = 0
    · rw [applyDirective, if_neg fun hc => hc.2 hoz]
      exact ⟨hoz, hz⟩
    · rw [applyDirective, if_pos ⟨rfl, hoz⟩]
      exact ⟨h2, hz⟩
  | trans dx dy dz =>
    by_cases hdz : dz = 0
    · rw [applyDirective, if_neg fun hc => hc.2 hdz]
      exact ⟨by simp [h2, hdz], translate_z dx dy dz hdz st.pts hz⟩
    · rw [applyDirective, if_pos ⟨rfl, hdz⟩]
      exact ⟨h2, hz⟩
  | atrans ax ay az =>
    by_cases haz : az = 0
    · rw [applyDirective, if_neg fun hc => hc.2 haz]
      exact ⟨haz, translate_z _ _ _ (by simp [h2, haz]) st.pts hz⟩
    · rw [applyDirective, if_pos ⟨rfl, haz⟩]
      exact ⟨h2, hz⟩
  | ftrans fx fy fz =>
    by_cases hfz : fz = 1/2
    · rw [applyDirective, if_neg fun hc => hc.2 hfz]
      rw [if_neg (show (2 : ℕ) ≠ 3 by decide)]
      exact ⟨rfl, translate_z _ _ _ (by simp [h2]) st.pts hz⟩
    · rw [applyDirective, if_pos ⟨rfl, hfz⟩]
      exact ⟨h2, hz⟩
  | scale sx sy sz =>
    by_cases hsz : sz = 1
    · rw [applyDirective, if_neg fun hc => hc.2 hsz]
      refine ⟨h2, ?_⟩
      intro p hp
      rcases List.mem_map.mp hp with ⟨q, hq, rfl⟩
      simp only [if_neg (show (2 : ℕ) ≠ 3 by decide)]
      exact hz q hq
    · rw [applyDirective, if_pos ⟨rfl, hsz⟩]
      exact ⟨h2, hz⟩
  | rotate theta rx ry rz =>
    by_cases hax : rx ≠ 0 ∨ ry ≠ 0 ∨ rz ≠ 1
    · rw [applyDirective, if_pos ⟨rfl, hax⟩]
      exact ⟨h2, hz⟩
    · rw [applyDirective, if_neg fun hc => hax hc.2]
      by_cases hze : rx = 0 ∧ ry = 0 ∧ rz = 0
      · rw [if_pos hze]
        exact ⟨h2, hz⟩
      · rw [if_neg hze]
        refine ⟨h2, ?_⟩
        intro p hp
        rcases List.mem_map.mp hp with ⟨q, hq, rfl⟩
        simp only [if_neg (show (2 : ℕ) ≠ 3 by decide)]
        exact hz q hq
  | invert =>
    exact ⟨h2, hz⟩

/-- The whole 2-D directive loop keeps every new point's z at exactly 0,
whether it runs to completion or stops at a rejected directive. -/
theorem applyDirectives_2d_z (box : Box) (R : ℚ → ℚ → ℚ → ℚ → Mat3)
    (nline : ℕ) :
    ∀ (dirs : List Directive) (st : TState),
      st.org2 = 0 → (∀ p ∈ st.pts, p.x2 = 0) →
      (applyDirectives 2 box R nline st dirs).1.org2 = 0 ∧
        ∀ p ∈ (applyDirectives 2 box R nline st dirs).1.pts, p.x2 = 0
  | [], st => fun h2 hz => ⟨h2, hz⟩
  | d :: ds, st => by
    intro h2 hz
    have hd := applyDirective_2d_z box R nline st d h2 hz
    unfold applyDirectives
    cases hstep : applyDirective 2 box R nline st d with
    | mk st' oe =>
      rw [hstep] at hd
      cases oe with
      | none => exact applyDirectives_2d_z box R nline ds st' hd.1 hd.2
      | some e => exact hd

/-- C9: in 2-D mode the z coordinate of every new point is exactly 0 after
parsing, and stays exactly 0 across any sequence of directives: scale and
rotate never write the out-of-plane coordinate, every directive whose
out-of-plane parameter deviates from its identity value is rejected before
modifying any point, and the loop state at an error still has every z at
0. -/
theorem planar_2d_invariant :
    (∀ (recs : List (List ℚ)) (pts : List Point),
       read_points 2 recs = .ok pts → ∀ p ∈ pts, p.x2 = 0) ∧
    (∀ (box : Box) (R : ℚ → ℚ → ℚ → ℚ → Mat3) (nline : ℕ)
       (dirs : List Directive) (st : TState),
       st.org2 = 0 → (∀ p ∈ st.pts, p.x2 = 0) →
       ∀ p ∈ (applyDirectives 2 box R nline st dirs).1.pts, p.x2 = 0) :=
  ⟨fun recs pts h => read_pointsLoop_2d_z recs.length recs pts h,
   fun box R nline dirs st h2 hz =>
     (applyDirectives_2d_z box R nline dirs st h2 hz).2⟩

/-- Witness for C9: a concrete parse plus a directive sequence (origin,
scale, rotate about the out-of-plane axis, invert) ends with every new
point's z still exactly 0. -/
theorem planar_2d_invariant_witness :
    (∀ p ∈ [(⟨1, 1, 0⟩ : Point)], p.x2 = 0) ∧
    (∀ p ∈ (applyDirectives 2 ⟨0, 0, -1, 2, 2, 1⟩
        (fun _ _ _ _ => ⟨0, -1, 0, 1, 0, 0, 0, 0, 1⟩) 0
        ⟨[⟨1, 1, 0⟩], [], [], 0, 0, 0⟩
        [.origin 1 2 0, .scale 2 3 1, .rotate 90 0 0 1, .invert]).1.pts,
      p.x2 = 0) :=
  ⟨planar_2d_invariant.1 [[9, 1, 1]] [⟨1, 1, 0⟩] rfl,
   planar_2d_invariant.2 ⟨0, 0, -1, 2, 2, 1⟩
     (fun _ _ _ _ => ⟨0, -1, 0, 1, 0, 0, 0, 0, 1⟩) 0
     [.origin 1 2 0, .scale 2 3 1, .rotate 90 0 0 1, .invert]
     ⟨[⟨1, 1, 0⟩], [], [], 0, 0, 0⟩ rfl (by simp)⟩

/-- Parsing a batch of vertex-valid line records stores them all, each with
indices translated by `-1 + npoint_old`. -/
theorem parseRecords_line_ok (sid npo np : ℤ) :
    ∀ (l : List (List ℤ)),
      (∀ r ∈ l, ¬ badLineVertex np (r.getD 1 0) (r.getD 2 0)) →
      parseRecords (parseLine sid npo np) l =
        .ok (l.map fun r =>
          (⟨sid, r.getD 1 0 - 1 + npo, r.getD 2 0 - 1 + npo⟩ : Line))
  | [], _ => rfl
  | r :: rs, h => by
    have hr := h r (by simp)
    have ih := parseRecords_line_ok sid npo np rs fun x hx => h x (List.mem_cons_of_mem _ hx)
    have hstep : parseLine sid npo np r =
        .ok ⟨sid, r.getD 1 0 - 1 + npo, r.getD 2 0 - 1 + npo⟩ := by
      unfold parseLine
      rw [if_neg hr]
    unfold parseRecords
    rw [hstep, ih]
    rfl

/-- Parsing a batch containing a vertex-invalid line record fails with the
"Invalid point index in line" error. -/
theorem parseRecords_line_err (sid npo np : ℤ) :
    ∀ (l : List (List ℤ)),
      (∃ r ∈ l, badLineVertex np (r.getD 1 0) (r.getD 2 0)) →
      parseRecords (parseLine sid npo np) l = .error .indexLine
  | [], h => absurd h (by simp)
  | r :: rs, h => by
    by_cases hr : badLineVertex np (r.getD 1 0) (r.getD 2 0)
    · have hstep : parseLine sid npo np r = .error .indexLine := by
        unfold parseLine
        rw [if_pos hr]
      unfold parseRecords
      rw [hstep]
    · have hrs : ∃ x ∈ rs, badLineVertex np (x.getD 1 0) (x.getD 2 0) := by
        rcases h with ⟨x, hx, hbad⟩
        rcases List.mem_cons.mp hx with rfl | hx2
        · exact absurd hbad hr
        · exact ⟨x, hx2, hbad⟩
      have hstep : parseLine sid npo np r =
          .ok ⟨sid, r.getD 1 0 - 1 + npo, r.getD 2 0 - 1 + npo⟩ := by
        unfold parseLine
        rw [if_neg hr]
      unfold parseRecords
      rw [hstep, parseRecords_line_err sid npo np rs hrs]

/-- Batch parsing of vertex-valid triangle records stores them all. -/
theorem parseRecords_tri_ok (sid npo np : ℤ) :
    ∀ (l : List (List ℤ)),
      (∀ r ∈ l, ¬ badTriVertex np (r.getD 1 0) (r.getD 2 0) (r.getD 3 0)) →
      parseRecords (parseTri sid npo np) l =
        .ok (l.map fun r =>
          (⟨sid, r.getD 1 0 - 1 + npo, r.getD 2 0 - 1 + npo,
            r.getD 3 0 - 1 + npo⟩ : Tri))
  | [], _ => rfl
  | r :: rs, h => by
    have hr := h r (by simp)
    have ih := parseRecords_tri_ok sid npo np rs fun x hx => h x (List.mem_cons_of_mem _ hx)
    have hstep : parseTri sid npo np r =
        .ok ⟨sid, r.getD 1 0 - 1 + npo, r.getD 2 0 - 1 + npo, r.getD 3 0 - 1 + npo⟩ := by
      unfold parseTri
      rw [if_neg hr]
    unfold parseRecords
    rw [hstep, ih]
    rfl

/-- Batch parsing of triangle records containing a vertex-invalid one fails
with the "Invalid point index in triangle" error. -/
theorem parseRecords_tri_err (sid npo np : ℤ) :
    ∀ (l : List (List ℤ)),
      (∃ r ∈ l, badTriVertex np (r.getD 1 0) (r.getD 2 0) (r.getD 3 0)) →
      parseRecords (parseTri sid npo np) l = .error .indexTri
  | [], h => absurd h (by simp)
  | r :: rs, h => by
    by_cases hr : badTriVertex np (r.getD 1 0) (r.getD 2 0) (r.getD 3 0)
    · have hstep : parseTri sid npo np r = .error .indexTri := by
        unfold parseTri
        rw [if_pos hr]
      unfold parseRecords
      rw [hstep]
    · have hrs : ∃ x ∈ rs, badTriVertex np (x.getD 1 0) (x.getD 2 0) (x.getD 3 0) := by
        rcases h with ⟨x, hx, hbad⟩
        rcases List.mem_cons.mp hx with rfl | hx2
        · exact absurd hbad hr
        · exact ⟨x, hx2, hbad⟩
      have hstep : parseTri sid npo np r =
          .ok ⟨sid, r.getD 1 0 - 1 + npo, r.getD 2 0 - 1 + npo, r.getD 3 0 - 1 + npo⟩ := by
        unfold parseTri
        rw [if_neg hr]
      unfold parseRecords
      rw [hstep, parseRecords_tri_err sid npo np rs hrs]

/-- Characterization of the chunked line reader on records of the correct
token count: a vertex-invalid record anywhere fails with the index error,
and a fully valid list is stored record for record. -/
theorem read_linesLoop_char (sid npo np : ℤ) :
    ∀ (fuel : ℕ) (recs : List (List ℤ)), recs.length ≤ fuel →
      (∀ r ∈ recs, r.length = 3) →
      ((∃ r ∈ recs, badLineVertex np (r.getD 1 0) (r.getD 2 0)) →
         read_linesLoop sid npo np fuel recs = .error .indexLine) ∧
      ((∀ r ∈ recs, ¬ badLineVertex np (r.getD 1 0) (r.getD 2 0)) →
         read_linesLoop sid npo np fuel recs =
           .ok (recs.map fun r =>
             (⟨sid, r.getD 1 0 - 1 + npo, r.getD 2 0 - 1 + npo⟩ : Line)))
  | fuel, [], _, _ => by
    constructor
    · intro h
      exact absurd h (by simp)
    · intro
      cases fuel <;> rfl
  | 0, r :: rs, hle, _ => by
    simp at hle
  | fuel + 1, r :: rs, hle, hlen => by
    have hsplit : r :: rs = (r :: rs.take (CHUNK - 1)) ++ rs.drop (CHUNK - 1) := by
      simp
    have hrest_le : (rs.drop (CHUNK - 1)).length ≤ fuel := by
      simp only [List.length_drop]
      simp only [List.length_cons] at hle
      omega
    have hrest_len : ∀ r2 ∈ rs.drop (CHUNK - 1), r2.length = 3 := fun r2 hr2 =>
      hlen r2 (List.mem_cons_of_mem _ (List.drop_subset _ _ hr2))
    have ih := read_linesLoop_char sid npo np fuel (rs.drop (CHUNK - 1))
      hrest_le hrest_len
    have htok : ¬ r.length ≠ 3 := fun hc => hc (hlen r (by simp))
    constructor
    · intro hbad
      unfold read_linesLoop
      rw [if_neg htok]
      by_cases hchunk : ∃ x ∈ r :: rs.take (CHUNK - 1),
          badLineVertex np (x.getD 1 0) (x.getD 2 0)
      · rw [parseRecords_line_err sid npo np _ hchunk]
      · rw [parseRecords_line_ok sid npo np _ fun x hx => by
          by_contra hc
          exact hchunk ⟨x, hx, hc⟩]
        have hrest_bad : ∃ x ∈ rs.drop (CHUNK - 1),
            badLineVertex np (x.getD 1 0) (x.getD 2 0) := by
          rcases hbad with ⟨x, hx, hbadx⟩
          rw [hsplit] at hx
          rcases List.mem_append.mp hx with hx1 | hx2
          · exact absurd ⟨x, hx1, hbadx⟩ hchunk
          · exact ⟨x, hx2, hbadx⟩
        rw [ih.1 hrest_bad]
    · intro hgood
      unfold read_linesLoop
      rw [if_neg htok]
      rw [parseRecords_line_ok sid npo np _ fun x hx => hgood x (by
        rw [hsplit]
        exact List.mem_append.mpr (Or.inl hx))]
      rw [ih.2 fun x hx => hgood x (by
        rw [hsplit]
        exact List.mem_append.mpr (Or.inr hx))]
      rw [show (r :: rs).map _ = ((r :: rs.take (CHUNK - 1)) ++ rs.drop (CHUNK - 1)).map
          (fun r => (⟨sid, r.getD 1 0 - 1 + npo, r.getD 2 0 - 1 + npo⟩ : Line)) from by
        rw [← hsplit]]
      rw [List.map_append]

/-- Characterization of the chunked triangle reader on records of the
correct token count. -/
theorem read_trisLoop_char (sid npo np : ℤ) :
    ∀ (fuel : ℕ) (recs : List (List ℤ)), recs.length ≤ fuel →
      (∀ r ∈ recs, r.length = 4) →
      ((∃ r ∈ recs, badTriVertex np (r.getD 1 0) (r.getD 2 0) (r.getD 3 0)) →
         read_trisLoop sid npo np fuel recs = .error .indexTri) ∧
      ((∀ r ∈ recs, ¬ badTriVertex np (r.getD 1 0) (r.getD 2 0) (r.getD 3 0)) →
         read_trisLoop sid npo np fuel recs =
           .ok (recs.map fun r =>
             (⟨sid, r.getD 1 0 - 1 + npo, r.getD 2 0 - 1 + npo,
               r.getD 3 0 - 1 + npo⟩ : Tri)))
  | fuel, [], _, _ => by
    constructor
    · intro h
      exact absurd h (by simp)
    · intro
      cases fuel <;> rfl
  | 0, r :: rs, hle, _ => by
    simp at hle
  | fuel + 1, r :: rs, hle, hlen => by
    have hsplit : r :: rs = (r :: rs.take (CHUNK - 1)) ++ rs.drop (CHUNK - 1) := by
      simp
    have hrest_le : (rs.drop (CHUNK - 1)).length ≤ fuel := by
      simp only [List.length_drop]
      simp only [List.length_cons] at hle
      omega
    have hrest_len : ∀ r2 ∈ rs.drop (CHUNK - 1), r2.length = 4 := fun r2 hr2 =>
      hlen r2 (List.mem_cons_of_mem _ (List.drop_subset _ _ hr2))
    have ih := read_trisLoop_char sid npo np fuel (rs.drop (CHUNK - 1))
      hrest_le hrest_len
    have htok : ¬ r.length ≠ 4 := fun hc => hc (hlen r (by simp))
    constructor
    · intro hbad
      unfold read_trisLoop
      rw [if_neg htok]
      by_cases hchunk : ∃ x ∈ r :: rs.take (CHUNK - 1),
          badTriVertex np (x.getD 1 0) (x.getD 2 0) (x.getD 3 0)
      · rw [parseRecords_tri_err sid npo np _ hchunk]
      · rw [parseRecords_tri_ok sid npo np _ fun x hx => by
          by_contra hc
          exact hchunk ⟨x, hx, hc⟩]
        have hrest_bad : ∃ x ∈ rs.drop (CHUNK - 1),
            badTriVertex np (x.getD 1 0) (x.getD 2 0) (x.getD 3 0) := by
          rcases hbad with ⟨x, hx, hbadx⟩
          rw [hsplit] at hx
          rcases List.mem_append.mp hx with hx1 | hx2
          · exact absurd ⟨x, hx1, hbadx⟩ hchunk
          · exact ⟨x, hx2, hbadx⟩
        rw [ih.1 hrest_bad]
    · intro hgood
      unfold read_trisLoop
      rw [if_neg htok]
      rw [parseRecords_tri_ok sid npo np _ fun x hx => hgood x (by
        rw [hsplit]
        exact List.mem_append.mpr (Or.inl hx))]
      rw [ih.2 fun x hx => hgood x (by
        rw [hsplit]
        exact List.mem_append.mpr (Or.inr hx))]
      rw [show (r :: rs).map _ = ((r :: rs.take (CHUNK - 1)) ++ rs.drop (CHUNK - 1)).map
          (fun r => (⟨sid, r.getD 1 0 - 1 + npo, r.getD 2 0 - 1 + npo,
            r.getD 3 0 - 1 + npo⟩ : Tri)) from by
        rw [← hsplit]]
      rw [List.map_append]

/-- The point reader fails (necessarily with the point-format error) if and
only if the first record of some chunk has the wrong token count: records in
other positions are never token-checked. -/
theorem read_pointsLoop_err_iff (dim : ℕ) :
    ∀ (fuel : ℕ) (recs : List (List ℚ)),
      read_pointsLoop dim fuel recs = .error .formatPoint ↔
        ∃ r ∈ chunkHeadsLoop fuel recs, wrongPointTokens dim r
  | fuel, [] => by
    cases fuel <;> simp [read_pointsLoop, chunkHeadsLoop]
  | 0, r :: rs => by
    simp [read_pointsLoop, chunkHeadsLoop]
  | fuel + 1, r :: rs => by
    have ih := read_pointsLoop_err_iff dim fuel (rs.drop (CHUNK - 1))
    unfold read_pointsLoop chunkHeadsLoop
    by_cases h2 : dim = 2 ∧ r.length ≠ 3
    · rw [if_pos h2]
      exact ⟨fun _ => ⟨r, by simp, Or.inl h2⟩, fun _ => rfl⟩
    · rw [if_neg h2]
      by_cases h3 : dim = 3 ∧ r.length ≠ 4
      · rw [if_pos h3]
        exact ⟨fun _ => ⟨r, by simp, Or.inr h3⟩, fun _ => rfl⟩
      · rw [if_neg h3]
        have hwr : ¬ wrongPointTokens dim r := fun hc => hc.elim h2 h3
        cases hrec : read_pointsLoop dim fuel (rs.drop (CHUNK - 1)) with
        | error e =>
          rw [hrec] at ih
          constructor
          · intro hh
            have he : (Except.error e : Except Err (List Point)) =
                .error .formatPoint := hh
            rcases ih.mp he with ⟨x, hx, hwx⟩
            exact ⟨x, List.mem_cons_of_mem _ hx, hwx⟩
          · rintro ⟨x, hx, hwx⟩
            rcases List.mem_cons.mp hx with rfl | hx2
            · exact absurd hwx hwr
            · exact ih.mpr ⟨x, hx2, hwx⟩
        | ok rest =>
          rw [hrec] at ih
          constructor
          · intro hh
            exact Except.noConfusion hh
          · rintro ⟨x, hx, hwx⟩
            rcases List.mem_cons.mp hx with rfl | hx2
            · exact absurd hwx hwr
            · exact Except.noConfusion (ih.mpr ⟨x, hx2, hwx⟩)

/-- The line reader fails with the line-format error if and only if the
first record of some chunk has a token count other than 3, provided every
record's vertex references are valid (so that no index error preempts a
later chunk's check): records in other positions are never token-checked. -/
theorem read_linesLoop_err_iff (sid npo np : ℤ) :
    ∀ (fuel : ℕ) (recs : List (List ℤ)),
      (∀ r ∈ recs, ¬ badLineVertex np (r.getD 1 0) (r.getD 2 0)) →
      (read_linesLoop sid npo np fuel recs = .error .formatLine ↔
        ∃ r ∈ chunkHeadsLoop fuel recs, r.length ≠ 3)
  | fuel, [], _ => by
    cases fuel <;> simp [read_linesLoop, chunkHeadsLoop]
  | 0, r :: rs, _ => by
    simp [read_linesLoop, chunkHeadsLoop]
  | fuel + 1, r :: rs, hgood => by
    have ih := read_linesLoop_err_iff sid npo np fuel (rs.drop (CHUNK - 1))
      fun x hx => hgood x (List.mem_cons_of_mem _ (List.drop_subset _ _ hx))
    unfold read_linesLoop chunkHeadsLoop
    by_cases htok : r.length ≠ 3
    · rw [if_pos htok]
      exact ⟨fun _ => ⟨r, by simp, htok⟩, fun _ => rfl⟩
    · rw [if_neg htok]
      rw [parseRecords_line_ok sid npo np _ fun x hx => by
        rcases List.mem_cons.mp hx with rfl | hx2
        · exact hgood x (by simp)
        · exact hgood x (List.mem_cons_of_mem _ (List.take_subset _ _ hx2))]
      cases hrec : read_linesLoop sid npo np fuel (rs.drop (CHUNK - 1)) with
      | error e =>
        rw [hrec] at ih
        constructor
        · intro hh
          have he : (Except.error e : Except Err (List Line)) =
              .error .formatLine := hh
          rcases ih.mp he with ⟨x, hx, hwx⟩
          exact ⟨x, List.mem_cons_of_mem _ hx, hwx⟩
        · rintro ⟨x, hx, hwx⟩
          rcases List.mem_cons.mp hx with rfl | hx2
          · exact absurd hwx htok
          · exact ih.mpr ⟨x, hx2, hwx⟩
      | ok rest =>
        rw [hrec] at ih
        constructor
        · intro hh
          exact Except.noConfusion hh
        · rintro ⟨x, hx, hwx⟩
          rcases List.mem_cons.mp hx with rfl | hx2
          · exact absurd hwx htok
          · exact Except.noConfusion (ih.mpr ⟨x, hx2, hwx⟩)

/-- The triangle reader fails with the triangle-format error if and only if
the first record of some chunk has a token count other than 4, provided
every record's vertex references are valid: records in other positions are
never token-checked. -/
theorem read_trisLoop_err_iff (sid npo np : ℤ) :
    ∀ (fuel : ℕ) (recs : List (List ℤ)),
      (∀ r ∈ recs, ¬ badTriVertex np (r.getD 1 0) (r.getD 2 0) (r.getD 3 0)) →
      (read_trisLoop sid npo np fuel recs = .error .formatTri ↔
        ∃ r ∈ chunkHeadsLoop fuel recs, r.length ≠ 4)
  | fuel, [], _ => by
    cases fuel <;> simp [read_trisLoop, chunkHeadsLoop]
  | 0, r :: rs, _ => by
    simp [read_trisLoop, chunkHeadsLoop]
  | fuel + 1, r :: rs, hgood => by
    have ih := read_trisLoop_err_iff sid npo np fuel (rs.drop (CHUNK - 1))
      fun x hx => hgood x (List.mem_cons_of_mem _ (List.drop_subset _ _ hx))
    unfold read_trisLoop chunkHeadsLoop
    by_cases htok : r.length ≠ 4
    · rw [if_pos htok]
      exact ⟨fun _ => ⟨r, by simp, htok⟩, fun _ => rfl⟩
    · rw [if_neg htok]
      rw [parseRecords_tri_ok sid npo np _ fun x hx => by
        rcases List.mem_cons.mp hx with rfl | hx2
        · exact hgood x (by simp)
        · exact hgood x (List.mem_cons_of_mem _ (List.take_subset _ _ hx2))]
      cases hrec : read_trisLoop sid npo np fuel (rs.drop (CHUNK - 1)) with
      | error e =>
        rw [hrec] at ih
        constructor
        · intro hh
          have he : (Except.error e : Except Err (List Tri)) =
              .error .formatTri := hh
          rcases ih.mp he with ⟨x, hx, hwx⟩
          exact ⟨x, List.mem_cons_of_mem _ hx, hwx⟩
        · rintro ⟨x, hx, hwx⟩
          rcases List.mem_cons.mp hx with rfl | hx2
          · exact absurd hwx htok
          · exact ih.mpr ⟨x, hx2, hwx⟩
      | ok rest =>
        rw [hrec] at ih
        constructor
        · intro hh
          exact Except.noConfusion hh
        · rintro ⟨x, hx, hwx⟩
          rcases List.mem_cons.mp hx with rfl | hx2
          · exact absurd hwx htok
          · exact Except.noConfusion (ih.mpr ⟨x, hx2, hwx⟩)

/-- C2 (counterexample): a triangle record whose first and third vertex
indices coincide (indices 1,2,1 with 3 valid points) is NOT rejected — it is
parsed and stored — because the source checks only `p1 == p2 || p2 == p3`
(read_surf.cpp:518-519), contradicting the claim that any repeated vertex
index fails with FormatError. -/
theorem tri_repeated_vertex_stored :
    read_tris 7 0 3 [[0, 1, 2, 1]] = .ok [⟨7, 0, 1, 0⟩] ∧
    ([0, 1, 2, 1] : List ℤ).getD 1 0 = ([0, 1, 2, 1] : List ℤ).getD 3 0 :=
  ⟨rfl, rfl⟩

/-- C2 (amended): for records with the section's token count, parsing fails
with the invalid-index FormatError if and only if some record references an
index outside `[1, npoint_new]`, or repeats a vertex in the pairs the source
actually compares — both endpoints of a line, or the first/second or
second/third vertices of a triangle (first = third is accepted); otherwise
every record is stored with its indices translated into the store's global
index space. -/
theorem vertex_check_iff :
    (∀ (sid npo np : ℤ) (recs : List (List ℤ)), (∀ r ∈ recs, r.length = 3) →
       ((read_lines sid npo np recs = .error .indexLine ↔
           ∃ r ∈ recs, badLineVertex np (r.getD 1 0) (r.getD 2 0)) ∧
        ((∀ r ∈ recs, ¬ badLineVertex np (r.getD 1 0) (r.getD 2 0)) →
           read_lines sid npo np recs = .ok (recs.map fun r =>
             (⟨sid, r.getD 1 0 - 1 + npo, r.getD 2 0 - 1 + npo⟩ : Line))))) ∧
    (∀ (sid npo np : ℤ) (recs : List (List ℤ)), (∀ r ∈ recs, r.length = 4) →
       ((read_tris sid npo np recs = .error .indexTri ↔
           ∃ r ∈ recs, badTriVertex np (r.getD 1 0) (r.getD 2 0) (r.getD 3 0)) ∧
        ((∀ r ∈ recs, ¬ badTriVertex np (r.getD 1 0) (r.getD 2 0) (r.getD 3 0)) →
           read_tris sid npo np recs = .ok (recs.map fun r =>
             (⟨sid, r.getD 1 0 - 1 + npo, r.getD 2 0 - 1 + npo,
               r.getD 3 0 - 1 + npo⟩ : Tri))))) := by
  constructor
  · intro sid npo np recs hlen
    have hchar := read_linesLoop_char sid npo np recs.length recs le_rfl hlen
    refine ⟨⟨?_, fun hex => hchar.1 hex⟩, hchar.2⟩
    intro herr
    by_contra hno
    push_neg at hno
    have := hchar.2 hno
    rw [show read_lines sid npo np recs =
        read_linesLoop sid npo np recs.length recs from rfl] at herr
    rw [this] at herr
    exact Except.noConfusion herr
  · intro sid npo np recs hlen
    have hchar := read_trisLoop_char sid npo np recs.length recs le_rfl hlen
    refine ⟨⟨?_, fun hex => hchar.1 hex⟩, hchar.2⟩
    intro herr
    by_contra hno
    push_neg at hno
    have := hchar.2 hno
    rw [show read_tris sid npo np recs =
        read_trisLoop sid npo np recs.length recs from rfl] at herr
    rw [this] at herr
    exact Except.noConfusion herr

/-- Witness for C2 (amended): a line repeating its vertex fails with the
index error; a fully valid triangle record is stored translated. -/
theorem vertex_check_iff_witness :
    read_lines 9 0 2 [[0, 1, 1]] = .error .indexLine ∧
    read_tris 9 5 3 [[0, 1, 2, 3]] = .ok [⟨9, 5, 6, 7⟩] :=
  ⟨((vertex_check_iff.1 9 0 2 [[0, 1, 1]] (by decide)).1).mpr
     ⟨[0, 1, 1], by simp, by decide⟩,
   (vertex_check_iff.2 9 5 3 [[0, 1, 2, 3]] (by decide)).2 (by decide)⟩

/-- C4 (counterexample): a Points record in the middle of a chunk with the
wrong token count (4 tokens in 2-D) is NOT rejected: only the first record
of each 1024-record chunk is token-checked (read_surf.cpp:380-389), so
parsing succeeds, storing the record's first two coordinates. -/
theorem token_check_skips_non_chunk_heads :
    read_points 2 [[9, 1, 2], [9, 3, 4, 5]] = .ok [⟨1, 2, 0⟩, ⟨3, 4, 0⟩] ∧
    ([9, 3, 4, 5] : List ℚ).length ≠ 3 :=
  ⟨rfl, by decide⟩

/-- C4 (amended): the token-count check examines only the first record of
each chunk of up to 1024 records.  The Points section fails with
FormatError exactly when some chunk-first record has a token count
mismatching the dimensionality; and — on records whose vertex references
are valid, so no index error preempts a later chunk's check — the Lines
(3 tokens) and Triangles (4 tokens) sections fail with their FormatError
exactly when some chunk-first record's token count is wrong.  A wrong token
count in any other position is never detected. -/
theorem token_check_chunk_heads_only :
    (∀ (dim : ℕ) (recs : List (List ℚ)),
       read_points dim recs = .error .formatPoint ↔
         ∃ r ∈ chunkHeads recs, wrongPointTokens dim r) ∧
    (∀ (sid npo np : ℤ) (recs : List (List ℤ)),
       (∀ r ∈ recs, ¬ badLineVertex np (r.getD 1 0) (r.getD 2 0)) →
       (read_lines sid npo np recs = .error .formatLine ↔
          ∃ r ∈ chunkHeads recs, r.length ≠ 3)) ∧
    (∀ (sid npo np : ℤ) (recs : List (List ℤ)),
       (∀ r ∈ recs, ¬ badTriVertex np (r.getD 1 0) (r.getD 2 0) (r.getD 3 0)) →
       (read_tris sid npo np recs = .error .formatTri ↔
          ∃ r ∈ chunkHeads recs, r.length ≠ 4)) :=
  ⟨fun dim recs => read_pointsLoop_err_iff dim recs.length recs,
   fun sid npo np recs h => read_linesLoop_err_iff sid npo np recs.length recs h,
   fun sid npo np recs h => read_trisLoop_err_iff sid npo np recs.length recs h⟩

/-- Witness for C4 (amended): a chunk-first record with a surplus token (so
its vertex references, read positionally, stay valid) fails in each of the
three sections. -/
theorem token_check_chunk_heads_only_witness :
    read_points 2 [[9, 1, 2, 3]] = .error .formatPoint ∧
    read_lines 9 0 2 [[9, 1, 2, 2]] = .error .formatLine ∧
    read_tris 9 0 3 [[9, 1, 2, 3, 4]] = .error .formatTri :=
  ⟨(token_check_chunk_heads_only.1 2 [[9, 1, 2, 3]]).mpr
     ⟨[9, 1, 2, 3], by simp [chunkHeads, chunkHeadsLoop], Or.inl ⟨rfl, by decide⟩⟩,
   (token_check_chunk_heads_only.2.1 9 0 2 [[9, 1, 2, 2]] (by decide)).mpr
     ⟨[9, 1, 2, 2], by simp [chunkHeads, chunkHeadsLoop], by decide⟩,
   (token_check_chunk_heads_only.2.2 9 0 3 [[9, 1, 2, 3, 4]] (by decide)).mpr
     ⟨[9, 1, 2, 3, 4], by simp [chunkHeads, chunkHeadsLoop], by decide⟩⟩

/-- The chain of a bin lists its points in strictly decreasing index
order (head insertion while scanning increasing indices). -/
theorem chainOf_pairwise (binf : ℕ → ℤ × ℤ × ℤ) (np : ℕ) (b : ℤ × ℤ × ℤ) :
    (chainOf binf np b).Pairwise fun a c => c < a := by
  unfold chainOf
  rw [List.pairwise_reverse]
  exact (List.pairwise_lt_range np).filter _

/-- Membership in a bin's chain. -/
theorem chainOf_mem (binf : ℕ → ℤ × ℤ × ℤ) (np : ℕ) (b : ℤ × ℤ × ℤ) (m : ℕ) :
    m ∈ chainOf binf np b ↔ m < np ∧ binf m = b := by
  unfold chainOf
  simp [List.mem_filter, List.mem_range]

/-- The nested chain traversal visits the pair of any two chain members,
larger index first. -/
theorem chainPairs_mem_intro :
    ∀ (l : List ℕ), l.Pairwise (fun a c => c < a) →
      ∀ (m n : ℕ), m ∈ l → n ∈ l → n < m → (m, n) ∈ chainPairs l
  | [], _, m, n, hm, _, _ => absurd hm (by simp)
  | a :: t, hp, m, n, hm, hn, hnm => by
    rw [List.pairwise_cons] at hp
    unfold chainPairs
    rcases List.mem_cons.mp hm with rfl | hm2
    · have hn2 : n ∈ t := by
        rcases List.mem_cons.mp hn with rfl | hn2
        · omega
        · exact hn2
      exact List.mem_append.mpr (Or.inl (List.mem_map.mpr ⟨n, hn2, rfl⟩))
    · have hn2 : n ∈ t := by
        rcases List.mem_cons.mp hn with rfl | hn2
        · have := hp.1 m hm2
          omega
        · exact hn2
      exact List.mem_append.mpr (Or.inr (chainPairs_mem_intro t hp.2 m n hm2 hn2 hnm))

/-- Conversely, every pair the traversal visits consists of two chain
members, larger index first. -/
theorem chainPairs_mem_elim :
    ∀ (l : List ℕ), l.Pairwise (fun a c => c < a) →
      ∀ (m n : ℕ), (m, n) ∈ chainPairs l → m ∈ l ∧ n ∈ l ∧ n < m
  | [], _, m, n, h => absurd h (by simp [chainPairs])
  | a :: t, hp, m, n, h => by
    rw [List.pairwise_cons] at hp
    unfold chainPairs at h
    rcases List.mem_append.mp h with h1 | h2
    · rcases List.mem_map.mp h1 with ⟨x, hx, heq⟩
      injection heq with h1a h1b
      subst h1a
      subst h1b
      exact ⟨by simp, List.mem_cons_of_mem _ hx, hp.1 _ hx⟩
    · have hrec := chainPairs_mem_elim t hp.2 m n h2
      exact ⟨List.mem_cons_of_mem _ hrec.1, List.mem_cons_of_mem _ hrec.2.1,
        hrec.2.2⟩

/-- A pass counts any same-bin pair (in a scanned bin) whose squared
distance is below the threshold. -/
theorem passBad_mem_intro (pts : List Point) (epssq : ℚ) (nbx nby nbz : ℕ)
    (o0 o1 o2 xbi ybi zbi : ℚ) (m n : ℕ) (hm : m < pts.length) (hnm : n < m)
    (hb : binIdx o0 o1 o2 xbi ybi zbi (ptAt pts m) =
          binIdx o0 o1 o2 xbi ybi zbi (ptAt pts n))
    (hscan : binIdx o0 o1 o2 xbi ybi zbi (ptAt pts m) ∈ scannedBins nbx nby nbz)
    (hd : distsq (ptAt pts m) (ptAt pts n) < epssq) :
    (m, n) ∈ passBad pts epssq nbx nby nbz o0 o1 o2 xbi ybi zbi := by
  unfold passBad
  rw [List.mem_filter]
  refine ⟨List.mem_flatMap.mpr
    ⟨binIdx o0 o1 o2 xbi ybi zbi (ptAt pts m), hscan, ?_⟩, by simpa using hd⟩
  refine chainPairs_mem_intro _ (chainOf_pairwise _ _ _) m n ?_ ?_ hnm
  · exact (chainOf_mem _ _ _ m).mpr ⟨hm, rfl⟩
  · exact (chainOf_mem _ _ _ n).mpr ⟨by omega, hb.symm⟩

/-- A pass counts nothing when no two points share a bin at distance below
the threshold. -/
theorem passBad_eq_nil (pts : List Point) (epssq : ℚ) (nbx nby nbz : ℕ)
    (o0 o1 o2 xbi ybi zbi : ℚ)
    (h : ∀ m n : ℕ, m < pts.length → n < m →
       binIdx o0 o1 o2 xbi ybi zbi (ptAt pts m) =
         binIdx o0 o1 o2 xbi ybi zbi (ptAt pts n) →
       ¬ distsq (ptAt pts m) (ptAt pts n) < epssq) :
    passBad pts epssq nbx nby nbz o0 o1 o2 xbi ybi zbi = [] := by
  unfold passBad
  rw [List.filter_eq_nil_iff]
  rintro ⟨m, n⟩ hmn
  rcases List.mem_flatMap.mp hmn with ⟨b, hbscan, hpair⟩
  have hel := chainPairs_mem_elim _ (chainOf_pairwise _ pts.length b) m n hpair
  have hm := (chainOf_mem _ _ _ m).mp hel.1
  have hn := (chainOf_mem _ _ _ n).mp hel.2.1
  simpa using h m n hm.1 hel.2.2 (hm.2.trans hn.2.symm)

/-- A pair with squared distance below the threshold that shares a scanned
cell in the box-aligned pass or in the offset pass forces a fatal result
reporting the firing pass's bad-pair count. -/
theorem pairs_core_close_pair (nbx nby nbz : ℕ) (box : Box) (pts : List Point)
    (epssq : ℚ) (m n : ℕ) (hm : m < pts.length) (hnm : n < m)
    (hbin :
      (binIdx box.lo0 box.lo1 box.lo2 (binInv box.xprd nbx) (binInv box.yprd nby)
          (binInv box.zprd nbz) (ptAt pts m) =
        binIdx box.lo0 box.lo1 box.lo2 (binInv box.xprd nbx) (binInv box.yprd nby)
          (binInv box.zprd nbz) (ptAt pts n) ∧
        binIdx box.lo0 box.lo1 box.lo2 (binInv box.xprd nbx) (binInv box.yprd nby)
          (binInv box.zprd nbz) (ptAt pts m) ∈ scannedBins nbx nby nbz) ∨
      (binIdx (pass2origin box.lo0 box.xprd nbx) (pass2origin box.lo1 box.yprd nby)
          (pass2origin box.lo2 box.zprd nbz) (binInv box.xprd nbx)
          (binInv box.yprd nby) (binInv box.zprd nbz) (ptAt pts m) =
        binIdx (pass2origin box.lo0 box.xprd nbx) (pass2origin box.lo1 box.yprd nby)
          (pass2origin box.lo2 box.zprd nbz) (binInv box.xprd nbx)
          (binInv box.yprd nby) (binInv box.zprd nbz) (ptAt pts n) ∧
        binIdx (pass2origin box.lo0 box.xprd nbx) (pass2origin box.lo1 box.yprd nby)
          (pass2origin box.lo2 box.zprd nbz) (binInv box.xprd nbx)
          (binInv box.yprd nby) (binInv box.zprd nbz) (ptAt pts m) ∈
          scannedBins nbx nby nbz)) :
    distsq (ptAt pts m) (ptAt pts n) < epssq →
      (check_point_pairs_core nbx nby nbz box pts epssq =
         some (.tooClose (pass1Bad nbx nby nbz box pts epssq).length) ∧
       (pass1Bad nbx nby nbz box pts epssq).length ≠ 0) ∨
      (check_point_pairs_core nbx nby nbz box pts epssq =
         some (.tooClose (pass2Bad nbx nby nbz box pts epssq).length) ∧
       (pass2Bad nbx nby nbz box pts epssq).length ≠ 0) := by
  intro hd
  by_cases h1 : (pass1Bad nbx nby nbz box pts epssq).length ≠ 0
  · refine Or.inl ⟨?_, h1⟩
    unfold check_point_pairs_core
    rw [if_pos h1]
  · refine Or.inr ⟨?_, ?_⟩
    · unfold check_point_pairs_core
      rw [if_neg h1]
      have h2 : (pass2Bad nbx nby nbz box pts epssq).length ≠ 0 := by
        unfold pass1Bad at h1
        rcases hbin with ⟨hb, hs⟩ | ⟨hb, hs⟩
        · exact absurd (List.length_pos.mpr (List.ne_nil_of_mem
            (passBad_mem_intro pts epssq nbx nby nbz _ _ _ _ _ _ m n
              hm hnm hb hs hd))) (by omega)
        · have hmem := passBad_mem_intro pts epssq nbx nby nbz _ _ _ _ _ _ m n
            hm hnm hb hs hd
          have := List.length_pos.mpr (List.ne_nil_of_mem hmem)
          unfold pass2Bad
          omega
      rw [if_pos h2]
    · unfold pass1Bad at h1
      rcases hbin with ⟨hb, hs⟩ | ⟨hb, hs⟩
      · exact absurd (List.length_pos.mpr (List.ne_nil_of_mem
          (passBad_mem_intro pts epssq nbx nby nbz _ _ _ _ _ _ m n
            hm hnm hb hs hd))) (by omega)
      · have hmem := passBad_mem_intro pts epssq nbx nby nbz _ _ _ _ _ _ m n
          hm hnm hb hs hd
        have := List.length_pos.mpr (List.ne_nil_of_mem hmem)
        unfold pass2Bad
        omega

/-- A pair at distance `2*epsilon` or more (squared distance at least
`(2*eps)^2`) is never counted by either pass. -/
theorem pairs_core_far_pair (nbx nby nbz : ℕ) (box : Box) (pts : List Point)
    (eps : ℚ) (m n : ℕ)
    (hfar : (2 * eps) * (2 * eps) ≤ distsq (ptAt pts m) (ptAt pts n)) :
    (m, n) ∉ pass1Bad nbx nby nbz box pts (eps * eps) ∧
    (m, n) ∉ pass2Bad nbx nby nbz box pts (eps * eps) := by
  have hkey : ¬ distsq (ptAt pts m) (ptAt pts n) < eps * eps := by
    nlinarith [mul_self_nonneg eps]
  constructor
  · intro hmem
    unfold pass1Bad passBad at hmem
    rw [List.mem_filter] at hmem
    exact hkey (by simpa using hmem.2)
  · intro hmem
    unfold pass2Bad passBad at hmem
    rw [List.mem_filter] at hmem
    exact hkey (by simpa using hmem.2)

/-- C7 (amended): every pair of new points at squared distance below
`epsilon^2` — in particular a pair at distance `0.5*epsilon` — that falls in
a common scanned cell of the box-aligned pass or of the half-cell-offset
pass is counted as a bad pair, causing the GeometryError that reports the
firing pass's (nonzero) bad-pair count; a pair straddling a cell boundary of
one pass on one axis and of the other pass on another axis can be missed by
both passes (see the accompanying counterexample); and no pair of points at
distance `2*epsilon` or more is ever counted by either pass. -/
theorem pairs_passes_characterization :
    (∀ (nbx nby nbz : ℕ) (box : Box) (pts : List Point) (epssq : ℚ) (m n : ℕ),
       m < pts.length → n < m →
       ((binIdx box.lo0 box.lo1 box.lo2 (binInv box.xprd nbx) (binInv box.yprd nby)
            (binInv box.zprd nbz) (ptAt pts m) =
          binIdx box.lo0 box.lo1 box.lo2 (binInv box.xprd nbx) (binInv box.yprd nby)
            (binInv box.zprd nbz) (ptAt pts n) ∧
          binIdx box.lo0 box.lo1 box.lo2 (binInv box.xprd nbx) (binInv box.yprd nby)
            (binInv box.zprd nbz) (ptAt pts m) ∈ scannedBins nbx nby nbz) ∨
        (binIdx (pass2origin box.lo0 box.xprd nbx) (pass2origin box.lo1 box.yprd nby)
            (pass2origin box.lo2 box.zprd nbz) (binInv box.xprd nbx)
            (binInv box.yprd nby) (binInv box.zprd nbz) (ptAt pts m) =
          binIdx (pass2origin box.lo0 box.xprd nbx) (pass2origin box.lo1 box.yprd nby)
            (pass2origin box.lo2 box.zprd nbz) (binInv box.xprd nbx)
            (binInv box.yprd nby) (binInv box.zprd nbz) (ptAt pts n) ∧
          binIdx (pass2origin box.lo0 box.xprd nbx) (pass2origin box.lo1 box.yprd nby)
            (pass2origin box.lo2 box.zprd nbz) (binInv box.xprd nbx)
            (binInv box.yprd nby) (binInv box.zprd nbz) (ptAt pts m) ∈
            scannedBins nbx nby nbz)) →
       distsq (ptAt pts m) (ptAt pts n) < epssq →
       (check_point_pairs_core nbx nby nbz box pts epssq =
          some (.tooClose (pass1Bad nbx nby nbz box pts epssq).length) ∧
        (pass1Bad nbx nby nbz box pts epssq).length ≠ 0) ∨
       (check_point_pairs_core nbx nby nbz box pts epssq =
          some (.tooClose (pass2Bad nbx nby nbz box pts epssq).length) ∧
        (pass2Bad nbx nby nbz box pts epssq).length ≠ 0)) ∧
    (∀ (nbx nby nbz : ℕ) (box : Box) (pts : List Point) (eps : ℚ) (m n : ℕ),
       (2 * eps) * (2 * eps) ≤ distsq (ptAt pts m) (ptAt pts n) →
       (m, n) ∉ pass1Bad nbx nby nbz box pts (eps * eps) ∧
       (m, n) ∉ pass2Bad nbx nby nbz box pts (eps * eps)) :=
  ⟨fun nbx nby nbz box pts epssq m n hm hnm hbin hd =>
     pairs_core_close_pair nbx nby nbz box pts epssq m n hm hnm hbin hd,
   fun nbx nby nbz box pts eps m n hfar =>
     pairs_core_far_pair nbx nby nbz box pts eps m n hfar⟩

/-- Witness for C7 (amended): two points 1/4 apart inside one cell of a
3×3×1 binning are caught, the error reporting the firing pass's nonzero
bad-pair count; two points at exactly twice a threshold of 1/8 are not
counted by either pass. -/
theorem pairs_passes_characterization_witness :
    (∃ k, check_point_pairs_core 3 3 1 ⟨0, 0, -1, 3, 3, 1⟩
        [⟨1/2, 1/2, 0⟩, ⟨1/2, 1/4, 0⟩] (1/4) = some (.tooClose k) ∧ k ≠ 0) ∧
    ((1, 0) ∉ pass1Bad 3 3 1 ⟨0, 0, -1, 3, 3, 1⟩
        [⟨1/2, 1/2, 0⟩, ⟨1/2, 1/4, 0⟩] (1/8 * (1/8)) ∧
     (1, 0) ∉ pass2Bad 3 3 1 ⟨0, 0, -1, 3, 3, 1⟩
        [⟨1/2, 1/2, 0⟩, ⟨1/2, 1/4, 0⟩] (1/8 * (1/8))) := by
  constructor
  · rcases pairs_passes_characterization.1 3 3 1 ⟨0, 0, -1, 3, 3, 1⟩
      [⟨1/2, 1/2, 0⟩, ⟨1/2, 1/4, 0⟩] (1/4) 1 0 (by decide) (by decide)
      (Or.inl ⟨by with_unfolding_all decide, by with_unfolding_all decide⟩)
      (by with_unfolding_all decide) with h | h
    · exact ⟨_, h.1, h.2⟩
    · exact ⟨_, h.1, h.2⟩
  · exact pairs_passes_characterization.2 3 3 1 ⟨0, 0, -1, 3, 3, 1⟩
      [⟨1/2, 1/2, 0⟩, ⟨1/2, 1/4, 0⟩] (1/8) 1 0 (by with_unfolding_all decide)

/-- The 2-D bin sizing at unit box and 5 points: `int(1/sqrt(1/5)) =
int(sqrt 5) = 2`, bumped to 3 by the offset-pass adjustment. -/
theorem nbin_unit5 : adjust (nbin0 1 (binSize2d 1 1 5)) = 3 := by
  have hs : binSize2d 1 1 5 = Real.sqrt (1 / 5) := by
    unfold binSize2d
    norm_num
  have hfloor : nbin0 1 (binSize2d 1 1 5) = 2 := by
    unfold nbin0
    rw [hs]
    have h3 : ((1 : ℚ) : ℝ) / Real.sqrt (1 / 5) = Real.sqrt 5 := by
      rw [show ((1 : ℚ) : ℝ) = (1 : ℝ) by norm_num]
      rw [show (1 : ℝ) / 5 = ((5 : ℝ))⁻¹ by norm_num]
      rw [Real.sqrt_inv, one_div, inv_inv]
    rw [h3]
    have h4 : (2 : ℝ) ≤ Real.sqrt 5 := by
      rw [show (2 : ℝ) = Real.sqrt 4 by
        rw [show (4 : ℝ) = 2 ^ 2 by norm_num, Real.sqrt_sq (by norm_num : (0:ℝ) ≤ 2)]]
      exact Real.sqrt_le_sqrt (by norm_num)
    have h5 : Real.sqrt 5 < 3 := by
      rw [show (3 : ℝ) = Real.sqrt 9 by
        rw [show (9 : ℝ) = 3 ^ 2 by norm_num, Real.sqrt_sq (by norm_num : (0:ℝ) ≤ 3)]]
      exact Real.sqrt_lt_sqrt (by norm_num) (by norm_num)
    rw [Int.floor_eq_iff]
    constructor
    · exact_mod_cast h4
    · push_cast
      linarith
  rw [hfloor]
  rfl

set_option maxRecDepth 2000 in
/-- C7 (counterexample): in the unit 2-D box with 5 new points (bins 3×3,
cell 1/3), the pair at distance exactly `0.5*epsilon` placed diagonally
across the crossing of a pass-1 x-boundary (x = 1/3) and a pass-2 y-boundary
(y = 1/2) is split by the x-cells of pass 1 and by the y-cells of pass 2, so
NEITHER pass counts it: `check_point_pairs` succeeds even though the two
points are closer than epsilon, refuting the claim that every pair at
distance `0.5*epsilon` is counted by at least one pass. -/
theorem pairs_check_misses_close_pair :
    check_point_pairs 2 probeBox probePts = none ∧
    distsq (ptAt probePts 0) (ptAt probePts 1) =
      (epsilonOf 2 probeBox / 2) * (epsilonOf 2 probeBox / 2) := by
  have hx : probeBox.xprd = 1 := by with_unfolding_all decide
  have hy : probeBox.yprd = 1 := by with_unfolding_all decide
  have hz : probeBox.zprd = 1 := by with_unfolding_all decide
  have hlen : probePts.length = 5 := rfl
  have e0 : binIdx probeBox.lo0 probeBox.lo1 probeBox.lo2 (binInv 1 3)
      (binInv 1 3) (binInv 1 1) (ptAt probePts 0) = (0, 1, 0) := by
    with_unfolding_all decide
  have e1 : binIdx probeBox.lo0 probeBox.lo1 probeBox.lo2 (binInv 1 3)
      (binInv 1 3) (binInv 1 1) (ptAt probePts 1) = (1, 1, 0) := by
    with_unfolding_all decide
  have e2 : binIdx probeBox.lo0 probeBox.lo1 probeBox.lo2 (binInv 1 3)
      (binInv 1 3) (binInv 1 1) (ptAt probePts 2) = (0, 0, 0) := by
    with_unfolding_all decide
  have e3 : binIdx probeBox.lo0 probeBox.lo1 probeBox.lo2 (binInv 1 3)
      (binInv 1 3) (binInv 1 1) (ptAt probePts 3) = (2, 0, 0) := by
    with_unfolding_all decide
  have e4 : binIdx probeBox.lo0 probeBox.lo1 probeBox.lo2 (binInv 1 3)
      (binInv 1 3) (binInv 1 1) (ptAt probePts 4) = (0, 2, 0) := by
    with_unfolding_all decide
  have f0 : binIdx (pass2origin probeBox.lo0 1 3) (pass2origin probeBox.lo1 1 3)
      (pass2origin probeBox.lo2 1 1) (binInv 1 3) (binInv 1 3) (binInv 1 1)
      (ptAt probePts 0) = (1, 1, 0) := by
    with_unfolding_all decide
  have f1 : binIdx (pass2origin probeBox.lo0 1 3) (pass2origin probeBox.lo1 1 3)
      (pass2origin probeBox.lo2 1 1) (binInv 1 3) (binInv 1 3) (binInv 1 1)
      (ptAt probePts 1) = (1, 2, 0) := by
    with_unfolding_all decide
  have f2 : binIdx (pass2origin probeBox.lo0 1 3) (pass2origin probeBox.lo1 1 3)
      (pass2origin probeBox.lo2 1 1) (binInv 1 3) (binInv 1 3) (binInv 1 1)
      (ptAt probePts 2) = (0, 0, 0) := by
    with_unfolding_all decide
  have f3 : binIdx (pass2origin probeBox.lo0 1 3) (pass2origin probeBox.lo1 1 3)
      (pass2origin probeBox.lo2 1 1) (binInv 1 3) (binInv 1 3) (binInv 1 1)
      (ptAt probePts 3) = (2, 0, 0) := by
    with_unfolding_all decide
  have f4 : binIdx (pass2origin probeBox.lo0 1 3) (pass2origin probeBox.lo1 1 3)
      (pass2origin probeBox.lo2 1 1) (binInv 1 3) (binInv 1 3) (binInv 1 1)
      (ptAt probePts 4) = (0, 2, 0) := by
    with_unfolding_all decide
  have h1 : pass1Bad 3 3 1 probeBox probePts
      (epsilonOf 2 probeBox * epsilonOf 2 probeBox) = [] := by
    unfold pass1Bad
    rw [hx, hy, hz]
    apply passBad_eq_nil
    intro m n hm hnm hb
    have hm5 : m < 5 := by simpa [hlen] using hm
    intro _
    interval_cases m <;> interval_cases n <;> simp [e0, e1, e2, e3, e4, Prod.ext_iff] at hb
  have h2 : pass2Bad 3 3 1 probeBox probePts
      (epsilonOf 2 probeBox * epsilonOf 2 probeBox) = [] := by
    unfold pass2Bad
    rw [hx, hy, hz]
    apply passBad_eq_nil
    intro m n hm hnm hb
    have hm5 : m < 5 := by simpa [hlen] using hm
    intro _
    interval_cases m <;> interval_cases n <;> simp [f0, f1, f2, f3, f4, Prod.ext_iff] at hb
  refine ⟨?_, ?_⟩
  · unfold check_point_pairs
    simp only [reduceIte, hx, hy, hlen, nbin_unit5]
    unfold check_point_pairs_core
    rw [h1, h2]
    rfl
  · norm_num [distsq, ptAt, probePts, probeBox, epsilonOf, EPS, Box.xprd, Box.yprd]

end ReadSurf
